import Mathlib

/-!
Verification development for the Dicenic script interpreter.

The definitions below are a shallow embedding of the interpreter sources:

* src/interpreter/types.ts            — value model (VariableType, DicenicValue)
* src/utils/TypeConverter.ts          — coercions (toNumber, toString, toBoolean)
* src/utils/DiceCalculator.ts         — dice-expression parsing and evaluation
* src/utils/StringInterpolator.ts     — string interpolation of {$...} spans
* src/interpreter/ExecutionContext.ts — variable pools and access permissions
* src/errors/DicenicError.ts          — error taxonomy
* src/errors/ErrorHandler.ts          — diagnostics sink and recovery policy
* src/interpreter/DicenicInterpreter.ts — tree-walking evaluator
* src/index.ts                        — top-level executeScript entry point

Modelling conventions:

* JavaScript numbers are modelled as exact rationals (ℚ).  The IEEE-754
  artefacts (rounding, Infinity, NaN) are outside this embedding; parseFloat
  returning NaN is modelled as Option.none.
* Mutable interpreter state (variable pools, the error/warning lists of the
  ErrorHandler, the lastValue accumulator) is threaded through an explicit
  state-and-exception monad; a thrown JS exception is the Except.error case,
  with the state at throw time preserved (matching JS, where mutations made
  before a throw stay visible).
* Math.random() draws are taken from an explicit stream of rationals in the
  state (the spec allows the embedder to seed the randomness source).
* Source positions (line/column) are produced by the ANTLR front-end, which
  is out of core scope; every call site in the evaluator passes the default
  -1 positions that the error constructors use in the sources.
* The SyntaxError class and the parse phase of executeScript are front-end
  only (out of core scope) and are not modelled; executeScript is modelled
  on an already-parsed program (the hasErrors = false path).
-/

/-- JS character classification used by parseFloat for leading whitespace. -/
def jsIsSpace (c : Char) : Bool :=
  c = ' ' ∨ c = '\t' ∨ c = '\n' ∨ c = '\r' ∨ c = '\x0b' ∨ c = '\x0c'

/-- Numeric value of a list of ASCII digits (most significant first). -/
def digitsToNat (ds : List Char) : Nat :=
  ds.foldl (fun a c => a * 10 + (c.toNat - '0'.toNat)) 0

/-- Longest leading run of ASCII digits, together with the rest. -/
def takeDigits (cs : List Char) : List Char × List Char :=
  (cs.takeWhile Char.isDigit, cs.dropWhile Char.isDigit)

/-- Exponent part of a JS float literal: (e|E)(+|-)?digits.  Returns the
exponent value when at least one digit follows; otherwise the exponent part
is not consumed (matching parseFloat's longest-valid-prefix rule). -/
def parseExponent (cs : List Char) : Int :=
  if cs.headD ' ' = 'e' ∨ cs.headD ' ' = 'E' then
    let rest := cs.tail
    let negE := rest.headD ' ' = '-'
    let rest2 := if rest.headD ' ' = '+' ∨ rest.headD ' ' = '-' then rest.tail else rest
    let ds := rest2.takeWhile Char.isDigit
    if ds.isEmpty then 0 else (if negE then -1 else 1) * (digitsToNat ds : Int)
  else 0

/-- The scanning part of JavaScript parseFloat: leading whitespace, optional
sign, digits with optional fraction, optional exponent; `none` stands for
NaN (no digits at all).  The result is (negative sign, mantissa digits as a
natural scaled by the fraction length, fraction length, exponent); only
ratFromScan below turns it into a rational, so this part evaluates inside
the kernel.  The "Infinity" word forms of parseFloat cannot be represented
in ℚ and are not modelled. -/
def jsParseFloatScan (cs0 : List Char) : Option (Bool × Nat × Nat × Int) :=
  let cs := cs0.dropWhile jsIsSpace
  let neg := cs.headD ' ' = '-'
  let cs1 := if cs.headD ' ' = '+' ∨ cs.headD ' ' = '-' then cs.tail else cs
  let intDs := cs1.takeWhile Char.isDigit
  let cs2 := cs1.dropWhile Char.isDigit
  let fracDs := if cs2.headD ' ' = '.' then cs2.tail.takeWhile Char.isDigit else []
  let cs3 := if cs2.headD ' ' = '.' then cs2.tail.dropWhile Char.isDigit else cs2
  if intDs.isEmpty ∧ fracDs.isEmpty then none
  else
    some (neg, digitsToNat intDs * 10 ^ fracDs.length + digitsToNat fracDs,
      fracDs.length, parseExponent cs3)

/-- The rational named by a parseFloat scan:
sign * (intPart + fracPart / 10 ^ fracLen) * 10 ^ exponent, with the
mantissa already scaled. -/
def ratFromScan (neg : Bool) (m fracLen : Nat) (e : Int) : ℚ :=
  (if neg then (-1 : ℚ) else 1) * ((m : ℚ) / (10 : ℚ) ^ fracLen) * (10 : ℚ) ^ e

/-- JavaScript parseFloat over the model's rationals. -/
def jsParseFloat (s : String) : Option ℚ :=
  match jsParseFloatScan s.toList with
  | none => none
  | some (neg, m, fl, e) => some (ratFromScan neg m fl e)

/-- JS truncation toward zero, as used by the % operator. -/
def jsTrunc (q : ℚ) : Int :=
  if 0 ≤ q then q.floor else -((-q).floor)

/-- JS remainder: a % b = a - b * trunc(a / b) (for finite b ≠ 0). -/
def jsRem (a b : ℚ) : ℚ :=
  a - b * (jsTrunc (a / b) : ℚ)

/-- Decimal digits of a natural number, least significant first; the fuel
argument (n itself suffices) keeps the recursion structural. -/
def natDigitsRev : Nat → Nat → List Char
  | 0, _ => []
  | Nat.succ fuel, n =>
    if n = 0 then [] else Char.ofNat (n % 10 + 48) :: natDigitsRev fuel (n / 10)

/-- Decimal string of a natural number. -/
def natToString (n : Nat) : String :=
  if n = 0 then "0" else String.mk (natDigitsRev n n).reverse

/-- Decimal string of an integer. -/
def intToString (i : Int) : String :=
  if i < 0 then "-" ++ natToString i.natAbs else natToString i.natAbs

/-- Fractional digits of a rational in [0,1), emitted until the remainder is
zero, capped at 20 digits.  JS prints the shortest digit string that
round-trips through the IEEE double; for the terminating decimals produced by
this interpreter's integer-heavy scripts the two agree, and no theorem below
depends on the non-terminating case. -/
def fracDigits : ℚ → Nat → List Char
  | _, 0 => []
  | q, Nat.succ fuel =>
    if q = 0 then []
    else
      let q10 := q * 10
      let d := q10.floor.toNat
      Char.ofNat (d + '0'.toNat) :: fracDigits (q10 - (q10.floor : ℚ)) fuel

/-- Model of JS Number.prototype.toString for the finite values this
interpreter produces: integers print without a decimal point. -/
def jsNumToString (q : ℚ) : String :=
  if q.den = 1 then intToString q.num
  else
    let sign := if q < 0 then "-" else ""
    let a := |q|
    let ip := a.floor.toNat
    sign ++ natToString ip ++ "." ++ String.mk (fracDigits (a - (a.floor : ℚ)) 20)

/-- Global replacement of a fixed nonempty pattern, left to right and
non-overlapping: the semantics of String.prototype.replace(/pat/g, rep) for
a literal pattern.  The fuel argument (instantiated with the list length by
the wrapper below, and sufficient because every step consumes at least one
character) keeps the recursion structural. -/
def replaceAllChars (p0 : Char) (prest : List Char) (rep : List Char) :
    Nat → List Char → List Char
  | _, [] => []
  | 0, cs => cs
  | Nat.succ fuel, c :: cs =>
    if (p0 :: prest).isPrefixOf (c :: cs) then
      rep ++ replaceAllChars p0 prest rep fuel (cs.drop prest.length)
    else
      c :: replaceAllChars p0 prest rep fuel cs

/-- String-level wrapper for replaceAllChars. -/
def jsReplaceAll (s pat rep : String) : String :=
  match pat.toList with
  | [] => s
  | p0 :: prest =>
    String.mk (replaceAllChars p0 prest rep.toList s.toList.length s.toList)

/-- JS String.prototype.trim on the whitespace class used by this model. -/
def jsTrim (s : String) : String :=
  String.mk ((s.toList.dropWhile jsIsSpace).reverse.dropWhile jsIsSpace).reverse

/-- JS String.prototype.toLowerCase restricted to ASCII (the only letters
the dice token can contain). -/
def jsToLower (s : String) : String :=
  String.mk (s.toList.map (fun c =>
    if 'A' ≤ c ∧ c ≤ 'Z' then Char.ofNat (c.toNat + 32) else c))

/-- JS String.prototype.startsWith for a fixed pattern. -/
def jsStartsWith (s pat : String) : Bool :=
  pat.toList.isPrefixOf s.toList

/-- JS String.prototype.endsWith for a fixed pattern. -/
def jsEndsWith (s pat : String) : Bool :=
  pat.toList.reverse.isPrefixOf s.toList.reverse

/-! ## Value model (src/interpreter/types.ts) -/

/-- VariableType enum. -/
inductive VariableType where
  | NUMBER
  | STRING
  | DICE_EXPRESSION
deriving DecidableEq, Repr

/-- The payload of a DicenicValue is number | string. -/
inductive VPayload where
  | num (q : ℚ)
  | str (s : String)
deriving DecidableEq, Repr

/-- DicenicValue: { type, value }. -/
structure DicenicValue where
  type : VariableType
  value : VPayload
deriving DecidableEq, Repr

/-- The cached default number value { type: NUMBER, value: 0 }. -/
def numberValue (q : ℚ) : DicenicValue := ⟨.NUMBER, .num q⟩

/-- A string value { type: STRING, value: s }. -/
def stringValue (s : String) : DicenicValue := ⟨.STRING, .str s⟩

instance : Inhabited DicenicValue := ⟨numberValue 0⟩

/-! ## TypeConverter (src/utils/TypeConverter.ts) -/

namespace TypeConverter

/-- TypeConverter.toNumber: NUMBER/DICE_EXPRESSION yield the numeric payload
(0 when the payload is not a number); STRING goes through parseFloat with
NaN mapped to 0. -/
def toNumber (value : DicenicValue) : ℚ :=
  match value.type with
  | .NUMBER =>
    match value.value with
    | .num q => q
    | .str _ => 0
  | .STRING =>
    match value.value with
    | .str sv => (jsParseFloat sv).getD 0
    | .num q => q
  | .DICE_EXPRESSION =>
    match value.value with
    | .num q => q
    | .str _ => 0

/-- TypeConverter.toString: STRING is itself; NUMBER/DICE_EXPRESSION print
the numeric payload. -/
def toString (value : DicenicValue) : String :=
  match value.type with
  | .STRING =>
    match value.value with
    | .str sv => sv
    | .num q => jsNumToString q
  | .NUMBER =>
    match value.value with
    | .num q => jsNumToString q
    | .str sv => sv
  | .DICE_EXPRESSION =>
    match value.value with
    | .num q => jsNumToString q
    | .str sv => sv

/-- TypeConverter.toBoolean: numbers are truthy iff nonzero, strings iff
nonempty. -/
def toBoolean (value : DicenicValue) : Bool :=
  match value.type with
  | .NUMBER =>
    match value.value with
    | .num q => q ≠ 0
    | .str _ => true
  | .STRING =>
    match value.value with
    | .str sv => sv ≠ ""
    | .num _ => true
  | .DICE_EXPRESSION =>
    match value.value with
    | .num q => q ≠ 0
    | .str _ => true

end TypeConverter

/-! ## ExecutionContext (src/interpreter/ExecutionContext.ts)

The five Map<string, DicenicValue> pools are modelled as insertion-ordered
association lists: Map.get is the first matching key, Map.set replaces in
place or appends. -/

/-- One variable pool. -/
abbrev Pool := List (String × DicenicValue)

/-- Map.prototype.get. -/
def poolGet (p : Pool) (name : String) : Option DicenicValue :=
  match p.find? (fun kv => kv.1 = name) with
  | some kv => some kv.2
  | none => none

/-- Map.prototype.set: update in place, else append. -/
def poolSet (p : Pool) (name : String) (v : DicenicValue) : Pool :=
  match p with
  | [] => [(name, v)]
  | kv :: rest =>
    if kv.1 = name then (name, v) :: rest else kv :: poolSet rest name v

/-- The five pools of an ExecutionContext.  The locals pool is called
"variables" in the source; that spelling is a reserved word here, so the
field is named vars. -/
structure ExecutionContext where
  attributes : Pool
  roleInfo : Pool
  systemInfo : Pool
  diceInfo : Pool
  vars : Pool
deriving DecidableEq, Repr

/-- A context with all pools empty (the no-argument constructor). -/
def emptyContext : ExecutionContext := ⟨[], [], [], [], []⟩

namespace ExecutionContext

/-- getVariable: locals lookup, default Number(0). -/
def getVariable (ctx : ExecutionContext) (name : String) : DicenicValue :=
  match poolGet ctx.vars name with
  | some v => v
  | none => numberValue 0

/-- setVariable. -/
def setVariable (ctx : ExecutionContext) (name : String) (v : DicenicValue) :
    ExecutionContext :=
  { ctx with vars := poolSet ctx.vars name v }

/-- getStorageByPrefix, none for unknown prefixes (the source throws there;
the callers below turn none into the thrown Error). -/
def getStorageByPrefix (ctx : ExecutionContext) (pfx : Char) : Option Pool :=
  if pfx = 'a' then some ctx.attributes
  else if pfx = 'r' then some ctx.roleInfo
  else if pfx = 's' then some ctx.systemInfo
  else if pfx = 'd' then some ctx.diceInfo
  else none

/-- setStorageByPrefix: writes the given pool back into its slot (the source
mutates the Map returned by getStorageByPrefix in place). -/
def setStorageByPrefix (ctx : ExecutionContext) (pfx : Char) (p : Pool) :
    ExecutionContext :=
  if pfx = 'a' then { ctx with attributes := p }
  else if pfx = 'r' then { ctx with roleInfo := p }
  else if pfx = 's' then { ctx with systemInfo := p }
  else if pfx = 'd' then { ctx with diceInfo := p }
  else ctx

/-- canWriteSpecialVariable: a and d pools are writable, r and s are
read-only, anything else fails closed. -/
def canWriteSpecialVariable (_ctx : ExecutionContext) (pfx : Char) : Bool :=
  if pfx = 'a' ∨ pfx = 'd' then true
  else false

/-- getSpecialVariable: pool lookup with prefix-dependent defaults
(r/s default to String(""), a/d to Number(0)); unknown prefixes surface the
getStorageByPrefix Error. -/
def getSpecialVariable (ctx : ExecutionContext) (pfx : Char) (name : String) :
    Except String DicenicValue :=
  match ctx.getStorageByPrefix pfx with
  | none => .error ("Unknown special variable prefix: " ++ String.mk [pfx])
  | some storage =>
    match poolGet storage name with
    | some v => .ok v
    | none =>
      if pfx = 'r' ∨ pfx = 's' then .ok (stringValue "")
      else .ok (numberValue 0)

/-- setSpecialVariable: permission check first (throwing on read-only
pools), then a Map.set on the prefix's pool. -/
def setSpecialVariable (ctx : ExecutionContext) (pfx : Char) (name : String)
    (v : DicenicValue) : Except String ExecutionContext :=
  if ¬ ctx.canWriteSpecialVariable pfx then
    .error ("Cannot write to read-only variable: $" ++ String.mk [pfx] ++ name)
  else
    match ctx.getStorageByPrefix pfx with
    | none => .error ("Unknown special variable prefix: " ++ String.mk [pfx])
    | some storage => .ok (ctx.setStorageByPrefix pfx (poolSet storage name v))

end ExecutionContext

/-! ## Error taxonomy (src/errors/DicenicError.ts) -/

/-- Access mode of a VariableAccessError. -/
inductive AccessType where
  | read
  | write
deriving DecidableEq, Repr

/-- Printed form of an access mode. -/
def AccessType.text : AccessType → String
  | .read => "read"
  | .write => "write"

/-- The DicenicError subclasses (SyntaxError belongs to the out-of-scope
front end and never arises in evaluator runs, so it is not modelled). -/
inductive DicenicError where
  | runtimeError (message : String) (line column : Int) (context : Option String)
  | typeConversionError (message sourceType targetType sourceValue : String)
      (line column : Int)
  | variableAccessError (message variableName : String) (accessType : AccessType)
      (line column : Int)
  | diceError (message diceExpression : String) (line column : Int)
  | loopError (message loopType : String) (maxIterations : Option Nat)
      (line column : Int)
deriving DecidableEq, Repr

namespace DicenicError

/-- The inherited Error.message field. -/
def message : DicenicError → String
  | .runtimeError m _ _ _ => m
  | .typeConversionError m _ _ _ _ _ => m
  | .variableAccessError m _ _ _ _ => m
  | .diceError m _ _ _ => m
  | .loopError m _ _ _ _ => m

/-- The errorType field set by each subclass constructor. -/
def errorType : DicenicError → String
  | .runtimeError _ _ _ _ => "RuntimeError"
  | .typeConversionError _ _ _ _ _ _ => "TypeConversionError"
  | .variableAccessError _ _ _ _ _ => "VariableAccessError"
  | .diceError _ _ _ _ => "DiceError"
  | .loopError _ _ _ _ _ => "LoopError"

/-- The line field. -/
def line : DicenicError → Int
  | .runtimeError _ l _ _ => l
  | .typeConversionError _ _ _ _ l _ => l
  | .variableAccessError _ _ _ l _ => l
  | .diceError _ _ l _ => l
  | .loopError _ _ _ l _ => l

/-- The column field. -/
def column : DicenicError → Int
  | .runtimeError _ _ c _ => c
  | .typeConversionError _ _ _ _ _ c => c
  | .variableAccessError _ _ _ _ c => c
  | .diceError _ _ _ c => c
  | .loopError _ _ _ _ c => c

/-- The base-class getFormattedMessage. -/
def baseFormattedMessage (e : DicenicError) : String :=
  if 0 ≤ e.line ∧ 0 ≤ e.column then
    e.errorType ++ " at line " ++ toString e.line ++ ", column " ++
      toString e.column ++ ": " ++ e.message
  else if 0 ≤ e.line then
    e.errorType ++ " at line " ++ toString e.line ++ ": " ++ e.message
  else
    e.errorType ++ ": " ++ e.message

/-- getFormattedMessage with the subclass overrides. -/
def getFormattedMessage (e : DicenicError) : String :=
  match e with
  | .runtimeError _ _ _ ctx =>
    (match ctx with
     | some c => e.baseFormattedMessage ++ "\nContext: " ++ c
     | none => e.baseFormattedMessage)
  | .typeConversionError _ st tt sv _ _ =>
    e.baseFormattedMessage ++ "\nFailed to convert " ++ st ++ "(" ++ sv ++
      ") to " ++ tt
  | .variableAccessError _ vn at' _ _ =>
    e.baseFormattedMessage ++ "\nVariable: " ++ vn ++ ", Access: " ++ at'.text
  | .diceError _ de _ _ =>
    e.baseFormattedMessage ++ "\nDice Expression: " ++ de
  | .loopError _ lt mi _ _ =>
    e.baseFormattedMessage ++ "\nLoop Type: " ++ lt ++
      (match mi with
       | some m => "\nMax Iterations: " ++ toString m
       | none => "")

end DicenicError

/-- A thrown JS exception: either a DicenicError or a plain Error (the
interpreter throws plain Errors for invalid assignment targets, malformed
special variables, unknown prefixes and invalid dice expressions). -/
inductive Thrown where
  | plainError (message : String)
  | dicenic (e : DicenicError)
deriving DecidableEq, Repr

/-- error.message as read by the executeScript catch clause. -/
def Thrown.message : Thrown → String
  | .plainError m => m
  | .dicenic e => e.message

/-! ## ErrorHandler configuration (src/errors/ErrorHandler.ts) -/

/-- ErrorHandlerConfig. -/
structure ErrorHandlerConfig where
  enableRecovery : Bool
  logWarnings : Bool
  maxErrors : Nat
  useDefaultOnTypeError : Bool
deriving DecidableEq, Repr

/-- DEFAULT_ERROR_CONFIG. -/
def DEFAULT_ERROR_CONFIG : ErrorHandlerConfig :=
  { enableRecovery := true
    logWarnings := true
    maxErrors := 10
    useDefaultOnTypeError := true }

/-! ## Interpreter state and monad

The interpreter object owns an ExecutionContext, an ErrorHandler (whose
mutable parts are the error and warning lists) and the lastValue
accumulator; rand is the stream of Math.random() draws. -/

/-- The mutable state of one interpreter run. -/
structure InterpState where
  ctx : ExecutionContext
  errors : List DicenicError
  warnings : List String
  lastValue : DicenicValue
  rand : List ℚ
deriving DecidableEq, Repr

/-- A fresh interpreter state over the given pools and randomness stream. -/
def initState (ctx : ExecutionContext) (rand : List ℚ) : InterpState :=
  { ctx := ctx
    errors := []
    warnings := []
    lastValue := numberValue 0
    rand := rand }

/-- State-and-exception monad of the interpreter: mutations made before a
throw remain visible in the returned state, as with JS object mutation. -/
def Interp (α : Type) : Type := InterpState → Except Thrown α × InterpState

namespace Interp

/-- Monadic return. -/
def pure' (a : α) : Interp α := fun s => (.ok a, s)

/-- Monadic bind: sequencing with exception propagation. -/
def bind' (m : Interp α) (f : α → Interp β) : Interp β := fun s =>
  match m s with
  | (.ok a, s1) => f a s1
  | (.error e, s1) => (.error e, s1)

instance : Monad Interp where
  pure := pure'
  bind := bind'

/-- throw. -/
def throwT (t : Thrown) : Interp α := fun s => (.error t, s)

/-- try/catch. -/
def tryCatch (m : Interp α) (h : Thrown → Interp α) : Interp α := fun s =>
  match m s with
  | (.ok a, s1) => (.ok a, s1)
  | (.error e, s1) => h e s1

/-- Read the whole state. -/
def getS : Interp InterpState := fun s => (.ok s, s)

/-- Replace the whole state. -/
def modifyS (f : InterpState → InterpState) : Interp Unit := fun s =>
  (.ok (), f s)

/-- Read the execution context. -/
def getCtx : Interp ExecutionContext := fun s => (.ok s.ctx, s)

/-- Mutate the execution context. -/
def modifyCtx (f : ExecutionContext → ExecutionContext) : Interp Unit :=
  modifyS (fun s => { s with ctx := f s.ctx })

/-- this.lastValue = v. -/
def setLastValue (v : DicenicValue) : Interp Unit :=
  modifyS (fun s => { s with lastValue := v })

/-- One Math.random() draw from the stream (0 when exhausted). -/
def nextRandom : Interp ℚ := fun s =>
  match s.rand with
  | [] => (.ok 0, s)
  | r :: rest => (.ok r, { s with rand := rest })

end Interp

/-! ## ErrorHandler operations (src/errors/ErrorHandler.ts)

The handler's config is immutable during a run and is passed explicitly;
its mutable error/warning arrays live in InterpState.  console.error and
console.warn logging has no effect on any observable state and is elided. -/

namespace ErrorHandler

open Interp

/-- private addWarning: push onto the warning list. -/
def addWarning (w : String) : Interp Unit :=
  modifyS (fun s => { s with warnings := s.warnings ++ [w] })

/-- private addError: push onto the error list, then throw a RuntimeError
when the new length exceeds maxErrors (the push is not rolled back). -/
def addError (cfg : ErrorHandlerConfig) (e : DicenicError) : Interp Unit :=
  fun s =>
    let s1 := { s with errors := s.errors ++ [e] }
    if s1.errors.length > cfg.maxErrors then
      (.error (.dicenic (.runtimeError
        ("Too many errors (" ++ toString s1.errors.length ++
          "), stopping execution") (-1) (-1) (some "Error limit exceeded"))), s1)
    else
      (.ok (), s1)

/-- handleRuntimeError: record, then throw if recovery is disabled. -/
def handleRuntimeError (cfg : ErrorHandlerConfig) (message : String)
    (line column : Int) (context : Option String) : Interp Unit := do
  let e := DicenicError.runtimeError message line column context
  addError cfg e
  if ¬ cfg.enableRecovery then
    throwT (.dicenic e)

/-- handleVariableAccessError: record, then throw if recovery is disabled. -/
def handleVariableAccessError (cfg : ErrorHandlerConfig) (message : String)
    (variableName : String) (accessType : AccessType)
    (line column : Int) : Interp Unit := do
  let e := DicenicError.variableAccessError message variableName accessType
    line column
  addError cfg e
  if ¬ cfg.enableRecovery then
    throwT (.dicenic e)

/-- handleDiceError: with recovery, a warning and a default Number(0); with
recovery disabled, record and throw. -/
def handleDiceError (cfg : ErrorHandlerConfig) (message : String)
    (diceExpression : String) (line column : Int) : Interp DicenicValue := do
  let e := DicenicError.diceError message diceExpression line column
  if cfg.enableRecovery then do
    addWarning e.getFormattedMessage
    pure (numberValue 0)
  else do
    addError cfg e
    throwT (.dicenic e)

/-- handleLoopError: always only a warning. -/
def handleLoopError (_cfg : ErrorHandlerConfig) (message : String)
    (loopType : String) (maxIterations : Option Nat)
    (line column : Int) : Interp Unit := do
  let e := DicenicError.loopError message loopType maxIterations line column
  addWarning e.getFormattedMessage

/-- Modelled from the spec: the interpreter's division/modulo-by-zero path
calls errorHandler.addPublicWarning, whose definition is missing from the
sources (the ErrorHandler there has only the private addWarning).  The
spec's diagnostics record is "an ordered sequence of typed errors ... and an
ordered sequence of warning strings" and classes division/modulo by zero as
"a recoverable Runtime condition → warning + Number(0)", so the call is
modelled as appending its message to the warning sequence. -/
def addPublicWarning (w : String) : Interp Unit :=
  addWarning w

end ErrorHandler

/-! ## DiceCalculator (src/utils/DiceCalculator.ts) -/

namespace DiceCalculator

open Interp

/-- MAX_DICE_COUNT. -/
def MAX_DICE_COUNT : Nat := 1000

/-- MAX_DICE_SIDES. -/
def MAX_DICE_SIDES : Nat := 10000

/-- validateDiceExpression: positive integers within the limits.  The model
parses counts as naturals, so the integrality and nonnegativity checks of
the source are inherent. -/
def validateDiceExpression (count sides : Nat) : Bool :=
  if count = 0 ∨ sides = 0 then false
  else if count > MAX_DICE_COUNT ∨ sides > MAX_DICE_SIDES then false
  else true

/-- parseDiceExpression: trim, lowercase, then the shape digits d digits;
anything else is the thrown invalid-format Error. -/
def parseDiceExpression (expression : String) : Except String (Nat × Nat) :=
  let clean := jsToLower (jsTrim expression)
  let cs := clean.toList
  let (countDs, rest) := takeDigits cs
  match rest with
  | 'd' :: rest2 =>
    let (sideDs, rest3) := takeDigits rest2
    if countDs.isEmpty ∨ sideDs.isEmpty ∨ ¬ rest3.isEmpty then
      .error ("Invalid dice expression format: " ++ expression)
    else
      .ok (digitsToNat countDs, digitsToNat sideDs)
  | _ => .error ("Invalid dice expression format: " ++ expression)

/-- One Math.floor(Math.random() * sides) + 1 draw. -/
def rollOnce (sides : Nat) : Interp ℚ := do
  let r ← nextRandom
  pure (((r * (sides : ℚ)).floor : ℚ) + 1)

/-- The summation loop of calculate. -/
def rollSum (sides : Nat) : Nat → Interp ℚ
  | 0 => pure 0
  | Nat.succ n => do
    let x ← rollOnce sides
    let rest ← rollSum sides n
    pure (x + rest)

/-- calculate: validate (throwing on failure), then sum count draws. -/
def calculate (count sides : Nat) : Interp ℚ := do
  if ¬ validateDiceExpression count sides then
    throwT (.plainError ("Invalid dice expression: " ++ toString count ++ "d" ++
      toString sides))
  rollSum sides count

/-- evaluateDiceExpression: parse, calculate, wrap as DICE_EXPRESSION. -/
def evaluateDiceExpression (expression : String) : Interp DicenicValue := do
  match parseDiceExpression expression with
  | .error m => throwT (.plainError m)
  | .ok (count, sides) => do
    let result ← calculate count sides
    pure ⟨.DICE_EXPRESSION, .num result⟩

end DiceCalculator

/-! ## StringInterpolator (src/utils/StringInterpolator.ts) -/

namespace StringInterpolator

/-- The non-overlapping matches of /\\{\\$([^}]*)\\}/g, scanning left to right
from character index i: each entry is (start, end, body) over the original
character offsets, as in parseInterpolationExpressions.  A span body is
everything up to the first close brace; a {$ with no later close brace has
no match, and no further span can start beyond it.  The fuel argument
(instantiated with the list length, and sufficient because every step
consumes at least one character) keeps the recursion structural. -/
def parseSpansFrom : Nat → List Char → Nat → List (Nat × Nat × String)
  | _, [], _ => []
  | 0, _, _ => []
  | Nat.succ fuel, '{' :: '$' :: rest, i =>
    if rest.any (fun c => c = '}') then
      let body := rest.takeWhile (fun c => c ≠ '}')
      let rest2 := (rest.dropWhile (fun c => c ≠ '}')).tail
      (i, i + body.length + 3, String.mk body) ::
        parseSpansFrom fuel rest2 (i + body.length + 3)
    else []
  | Nat.succ fuel, _ :: rest, i => parseSpansFrom fuel rest (i + 1)

/-- parseInterpolationExpressions on a whole template. -/
def parseInterpolationExpressions (template : String) :
    List (Nat × Nat × String) :=
  parseSpansFrom template.toList.length template.toList 0

/-- hasInterpolation: the /\{\$[^}]*\}/ test. -/
def hasInterpolation (template : String) : Bool :=
  ¬ (parseInterpolationExpressions template).isEmpty

/-- All ASCII letters, the /^[a-zA-Z]+$/ test (false on empty). -/
def isAllAsciiLetters (cs : List Char) : Bool :=
  ¬ cs.isEmpty ∧ cs.all Char.isAlpha

/-- Containment of a CJK character, the /[一-龥]/ test. -/
def hasCjkChar (cs : List Char) : Bool :=
  cs.any (fun c => 0x4e00 ≤ c.toNat ∧ c.toNat ≤ 0x9fa5)

/-- isSpecialVariableExpression: at least two characters, first in a/r/s/d,
remainder not entirely ASCII letters, and the remainder contains a CJK
character or starts with an underscore. -/
def isSpecialVariableExpression (expression : String) : Bool :=
  if expression.toList.length < 2 then false
  else
    let cs := expression.toList
    let firstChar := cs.headD ' '
    if ¬ ("arsd".toList.contains firstChar) then false
    else
      let restOfExpression := cs.tail
      if isAllAsciiLetters restOfExpression then false
      else
        hasCjkChar restOfExpression ∨ restOfExpression.headD ' ' = '_'

/-- evaluateSpecialVariable: split into prefix and name, resolve through
getSpecialVariable, stringify; the catch clause yields "". -/
def evaluateSpecialVariable (expression : String) (ctx : ExecutionContext) :
    String :=
  let cs := expression.toList
  let pfx := cs.headD ' '
  let variableName := String.mk cs.tail
  if variableName = "" then ""
  else
    match ctx.getSpecialVariable pfx variableName with
    | .ok v => TypeConverter.toString v
    | .error _ => ""

/-- evaluateNormalVariable: whole-body locals lookup (getVariable is total,
so the catch clause is dead). -/
def evaluateNormalVariable (expression : String) (ctx : ExecutionContext) :
    String :=
  TypeConverter.toString (ctx.getVariable expression)

/-- evaluateExpression: trim, empty body resolves to "", special-variable
bodies go through evaluateSpecialVariable, the rest are locals. -/
def evaluateExpression (expression : String) (ctx : ExecutionContext) :
    String :=
  let trimmedExpr := jsTrim expression
  if trimmedExpr = "" then ""
  else if isSpecialVariableExpression trimmedExpr then
    evaluateSpecialVariable trimmedExpr ctx
  else
    evaluateNormalVariable trimmedExpr ctx

/-- The back-to-front replacement loop of interpolate, over original span
offsets (evaluateExpression is total, so the catch clause is dead). -/
def applySpans (ctx : ExecutionContext) (cs : List Char) :
    List (Nat × Nat × String) → List Char
  | [] => cs
  | (st, en, body) :: rest =>
    let result := applySpans ctx cs rest
    result.take st ++ (evaluateExpression body ctx).toList ++ result.drop en

/-- interpolate: parse the spans, then substitute from the last span to the
first. -/
def interpolate (template : String) (ctx : ExecutionContext) : String :=
  let expressions := parseInterpolationExpressions template
  if expressions.isEmpty then template
  else String.mk (applySpans ctx template.toList expressions)

end StringInterpolator

/-! ## Abstract syntax (the parse-tree shapes of Dicenic.g4 consumed by the
visitor)

Each grammar production becomes one constructor; the chain productions
(('op' operand)*) carry their operand lists exactly as the ANTLR contexts
expose them to the visit methods. -/

/-- Unary operators of unaryExpression. -/
inductive UnaryOp where
  | logicalNot
  | minus
  | plus
deriving DecidableEq, Repr

/-- Operators of additiveExpression. -/
inductive AddOp where
  | plus
  | minus
deriving DecidableEq, Repr

/-- Operators of multiplicativeExpression. -/
inductive MulOp where
  | mult
  | div
  | mod
deriving DecidableEq, Repr

/-- Operators of relationalExpression. -/
inductive RelOp where
  | gt
  | lt
  | ge
  | le
deriving DecidableEq, Repr

/-- Operators of equalityExpression. -/
inductive EqOp where
  | eq
  | ne
deriving DecidableEq, Repr

/-- Operators of assignmentExpression. -/
inductive AssignOp where
  | assign
  | plusAssign
  | minusAssign
  | multAssign
  | divAssign
  | modAssign
deriving DecidableEq, Repr

/-- Operator argument of performArithmeticOperation ('+', '-', '*', '/',
'%'). -/
inductive ArithOp where
  | add
  | sub
  | mul
  | div
  | mod
deriving DecidableEq, Repr

/-- Operator argument of performComparisonOperation ('==', '!=', '>', '<',
'>=', '<='). -/
inductive CompOp where
  | eq
  | ne
  | gt
  | lt
  | ge
  | le
deriving DecidableEq, Repr

/-- Expression parse trees.  Literal constructors carry the raw token text,
exactly what ctx.text exposes to the visitor. -/
inductive Expr where
  | ternary (cond : Expr) (branches : Option (Expr × Expr))
  | logicalOr (head : Expr) (rest : List Expr)
  | logicalAnd (head : Expr) (rest : List Expr)
  | equality (head : Expr) (rest : List (EqOp × Expr))
  | relational (head : Expr) (rest : List (RelOp × Expr))
  | additive (head : Expr) (rest : List (AddOp × Expr))
  | multiplicative (head : Expr) (rest : List (MulOp × Expr))
  | unary (op : UnaryOp) (operand : Expr)
  | assignment (lhs : Expr) (rest : Option (AssignOp × Expr))
  | numberLiteral (text : String)
  | stringLiteral (text : String)
  | diceExpr (text : String)
  | identifier (name : String)
  | specialVariable (text : String)
  | paren (e : Expr)
deriving Repr

/-- Statement parse trees. -/
inductive Stmt where
  | ifStmt (cond : Expr) (thenBranch : Stmt) (elseBranch : Option Stmt)
  | whileStmt (cond : Expr) (body : Stmt)
  | exprStmt (e : Expr)
  | block (stmts : List Stmt)
deriving Repr

/-! ## The evaluator (src/interpreter/DicenicInterpreter.ts) -/

namespace DicenicInterpreter

open Interp ErrorHandler

/-- The maxLoopCount constant of visitWhileStatement. -/
def maxLoopCount : Nat := 10000

/-- True when a value is a STRING whose text does not parse as a number
(the isNaN(parseFloat(...)) tests of performArithmeticOperation). -/
def isNonNumericString (v : DicenicValue) : Bool :=
  (v.type == .STRING) &&
    (match v.value with
     | .str sv => (jsParseFloat sv).isNone
     | .num _ => false)

/-- performArithmeticOperation: string concatenation for + with a
non-numeric string operand; otherwise numeric, with division/modulo by zero
yielding a warning and 0. -/
def performArithmeticOperation (left right : DicenicValue)
    (operator : ArithOp) : Interp DicenicValue := do
  if operator = .add ∧ (isNonNumericString left ∨ isNonNumericString right) then
    pure (stringValue (TypeConverter.toString left ++ TypeConverter.toString right))
  else
    let leftNum := TypeConverter.toNumber left
    let rightNum := TypeConverter.toNumber right
    match operator with
    | .add => pure (numberValue (leftNum + rightNum))
    | .sub => pure (numberValue (leftNum - rightNum))
    | .mul => pure (numberValue (leftNum * rightNum))
    | .div =>
      if rightNum = 0 then do
        addPublicWarning "Division by zero, returning 0"
        pure (numberValue 0)
      else
        pure (numberValue (leftNum / rightNum))
    | .mod =>
      if rightNum = 0 then do
        addPublicWarning "Modulo by zero, returning 0"
        pure (numberValue 0)
      else
        pure (numberValue (jsRem leftNum rightNum))

/-- performComparisonOperation: ==/!= compare payloads on equal types and
stringified forms otherwise; the relational operators compare numerically;
the result is Number(1|0). -/
def performComparisonOperation (left right : DicenicValue)
    (operator : CompOp) : DicenicValue :=
  let result : Bool :=
    if operator = .eq ∨ operator = .ne then
      let base : Bool :=
        if left.type = right.type then left.value = right.value
        else TypeConverter.toString left = TypeConverter.toString right
      if operator = .ne then ¬ base else base
    else
      let leftNum := TypeConverter.toNumber left
      let rightNum := TypeConverter.toNumber right
      match operator with
      | .gt => leftNum > rightNum
      | .lt => leftNum < rightNum
      | .ge => leftNum ≥ rightNum
      | .le => leftNum ≤ rightNum
      | _ => false
  ⟨.NUMBER, .num (if result then 1 else 0)⟩

/-- visitNumberLiteral: parseFloat of the token text, NaN to 0. -/
def visitNumberLiteral (text : String) : DicenicValue :=
  match jsParseFloat text with
  | some q => numberValue q
  | none => numberValue 0

/-- The single-quote character. -/
def singleQuoteChar : Char := Char.ofNat 39

/-- visitStringLiteral's text processing: strip matching quotes, decode the
six escape sequences by successive global replacement (in source order),
then interpolate when a span is present. -/
def processStringLiteral (text : String) (ctx : ExecutionContext) : String :=
  let sq := String.mk [singleQuoteChar]
  let t1 :=
    if (jsStartsWith text "\"" ∧ jsEndsWith text "\"") ∨
        (jsStartsWith text sq ∧ jsEndsWith text sq) then
      String.mk ((text.toList.drop 1).dropLast)
    else text
  let t2 := jsReplaceAll t1 "\\\"" "\""
  let t3 := jsReplaceAll t2 (String.mk ['\\', singleQuoteChar]) sq
  let t4 := jsReplaceAll t3 "\\\\" "\\"
  let t5 := jsReplaceAll t4 "\\n" "\n"
  let t6 := jsReplaceAll t5 "\\t" "\t"
  let t7 := jsReplaceAll t6 "\\r" "\r"
  if StringInterpolator.hasInterpolation t7 then
    StringInterpolator.interpolate t7 ctx
  else t7

/-- context.getSpecialVariable as used from the evaluator: its thrown
unknown-prefix Error propagates as an exception. -/
def getSpecialVariableI (pfx : Char) (name : String) : Interp DicenicValue :=
  fun s =>
    match s.ctx.getSpecialVariable pfx name with
    | .ok v => (.ok v, s)
    | .error m => (.error (.plainError m), s)

/-- visitSpecialVariable: parse $prefix+name from the token text; malformed
text yields the default Number(0). -/
def visitSpecialVariable (text : String) : Interp DicenicValue :=
  if jsStartsWith text "$" ∧ text.toList.length > 2 then
    getSpecialVariableI (text.toList.getD 1 ' ')
      (String.mk (text.toList.drop 2))
  else
    pure (numberValue 0)

/-- visitDiceExpression: evaluate eagerly, routing any thrown dice failure
through handleDiceError. -/
def visitDiceExpression (cfg : ErrorHandlerConfig) (text : String) :
    Interp DicenicValue :=
  Interp.tryCatch (DiceCalculator.evaluateDiceExpression text)
    (fun err =>
      handleDiceError cfg
        ("Failed to evaluate dice expression: " ++ err.message) text (-1) (-1))

/-- performAssignment: compute the stored value (reading the current value
first for compound operators), then store through the permission checks.
A non-identifier, non-special left-hand side throws the plain
invalid-left-hand-side Error. -/
def performAssignment (cfg : ErrorHandlerConfig) (leftExpression : Expr)
    (rightValue : DicenicValue) (operator : AssignOp) :
    Interp DicenicValue := do
  let finalValue ←
    (match operator with
     | .assign => pure rightValue
     | _ => do
       let currentValue ←
         (match leftExpression with
          | .identifier varName => do
            let s ← getS
            pure (s.ctx.getVariable varName)
          | .specialVariable text =>
            if jsStartsWith text "$" ∧ text.toList.length > 2 then
              getSpecialVariableI (text.toList.getD 1 ' ')
                (String.mk (text.toList.drop 2))
            else
              pure (numberValue 0)
          | _ => throwT (.plainError "Invalid left-hand side in assignment"))
       match operator with
       | .plusAssign => performArithmeticOperation currentValue rightValue .add
       | .minusAssign => performArithmeticOperation currentValue rightValue .sub
       | .multAssign => performArithmeticOperation currentValue rightValue .mul
       | .divAssign => performArithmeticOperation currentValue rightValue .div
       | .modAssign => performArithmeticOperation currentValue rightValue .mod
       | .assign => pure rightValue)
  match leftExpression with
  | .identifier varName => do
    modifyCtx (fun c => c.setVariable varName finalValue)
    pure finalValue
  | .specialVariable text =>
    if jsStartsWith text "$" ∧ text.toList.length > 2 then do
      let pfx := text.toList.getD 1 ' '
      let name := String.mk (text.toList.drop 2)
      let s ← getS
      if ¬ s.ctx.canWriteSpecialVariable pfx then do
        handleVariableAccessError cfg
          ("Cannot write to read-only variable: " ++ text) text .write (-1) (-1)
        pure finalValue
      else
        match s.ctx.setSpecialVariable pfx name finalValue with
        | .ok ctx2 => do
          modifyCtx (fun _ => ctx2)
          pure finalValue
        | .error m => do
          handleVariableAccessError cfg m text .write (-1) (-1)
          pure finalValue
    else
      throwT (.plainError ("Invalid special variable format: " ++ text))
  | _ => throwT (.plainError "Invalid left-hand side in assignment")

mutual

/-- The expression visit methods. -/
def evalExpr (cfg : ErrorHandlerConfig) : Expr → Interp DicenicValue
  | .ternary cond branches => do
    let condition ← evalExpr cfg cond
    match branches with
    | none => pure condition
    | some (tbr, fbr) =>
      if TypeConverter.toBoolean condition then evalExpr cfg tbr
      else evalExpr cfg fbr
  | .logicalOr head rest => do
    let result ← evalExpr cfg head
    evalOrRest cfg result rest
  | .logicalAnd head rest => do
    let result ← evalExpr cfg head
    evalAndRest cfg result rest
  | .equality head rest => do
    let result ← evalExpr cfg head
    evalEqRest cfg result rest
  | .relational head rest => do
    let result ← evalExpr cfg head
    evalRelRest cfg result rest
  | .additive head rest => do
    let result ← evalExpr cfg head
    evalAddRest cfg result rest
  | .multiplicative head rest => do
    let result ← evalExpr cfg head
    evalMulRest cfg result rest
  | .unary op e =>
    (match op with
     | .logicalNot => do
       let operand ← evalExpr cfg e
       pure (numberValue (if TypeConverter.toBoolean operand then 0 else 1))
     | .minus => do
       let operand ← evalExpr cfg e
       pure (numberValue (-(TypeConverter.toNumber operand)))
     | .plus => do
       let operand ← evalExpr cfg e
       pure (numberValue (TypeConverter.toNumber operand)))
  | .assignment lhs none => evalExpr cfg lhs
  | .assignment lhs (some (op, rhs)) => do
    let rightValue ← evalExpr cfg rhs
    performAssignment cfg lhs rightValue op
  | .numberLiteral text => pure (visitNumberLiteral text)
  | .stringLiteral text => do
    let s ← getS
    pure (stringValue (processStringLiteral text s.ctx))
  | .diceExpr text => visitDiceExpression cfg text
  | .identifier name => do
    let s ← getS
    pure (s.ctx.getVariable name)
  | .specialVariable text => visitSpecialVariable text
  | .paren e => evalExpr cfg e

/-- The loop of visitLogicalOrExpression over the remaining operands: the
short-circuit test precedes each operand's evaluation. -/
def evalOrRest (cfg : ErrorHandlerConfig) (result : DicenicValue) :
    List Expr → Interp DicenicValue
  | [] => pure result
  | e :: rest =>
    if TypeConverter.toBoolean result then
      pure (numberValue 1)
    else do
      let rightOperand ← evalExpr cfg e
      let leftBool := TypeConverter.toBoolean result
      let rightBool := TypeConverter.toBoolean rightOperand
      evalOrRest cfg (numberValue (if leftBool ∨ rightBool then 1 else 0)) rest

/-- The loop of visitLogicalAndExpression over the remaining operands. -/
def evalAndRest (cfg : ErrorHandlerConfig) (result : DicenicValue) :
    List Expr → Interp DicenicValue
  | [] => pure result
  | e :: rest =>
    if ¬ TypeConverter.toBoolean result then
      pure (numberValue 0)
    else do
      let rightOperand ← evalExpr cfg e
      let leftBool := TypeConverter.toBoolean result
      let rightBool := TypeConverter.toBoolean rightOperand
      evalAndRest cfg (numberValue (if leftBool ∧ rightBool then 1 else 0)) rest

/-- The fold of visitEqualityExpression. -/
def evalEqRest (cfg : ErrorHandlerConfig) (result : DicenicValue) :
    List (EqOp × Expr) → Interp DicenicValue
  | [] => pure result
  | (op, e) :: rest => do
    let rightOperand ← evalExpr cfg e
    let r := performComparisonOperation result rightOperand
      (match op with | .eq => .eq | .ne => .ne)
    evalEqRest cfg r rest

/-- The fold of visitRelationalExpression. -/
def evalRelRest (cfg : ErrorHandlerConfig) (result : DicenicValue) :
    List (RelOp × Expr) → Interp DicenicValue
  | [] => pure result
  | (op, e) :: rest => do
    let rightOperand ← evalExpr cfg e
    let r := performComparisonOperation result rightOperand
      (match op with | .gt => .gt | .lt => .lt | .ge => .ge | .le => .le)
    evalRelRest cfg r rest

/-- The fold of visitAdditiveExpression. -/
def evalAddRest (cfg : ErrorHandlerConfig) (result : DicenicValue) :
    List (AddOp × Expr) → Interp DicenicValue
  | [] => pure result
  | (op, e) :: rest => do
    let rightOperand ← evalExpr cfg e
    let r ← performArithmeticOperation result rightOperand
      (match op with | .plus => .add | .minus => .sub)
    evalAddRest cfg r rest

/-- The fold of visitMultiplicativeExpression. -/
def evalMulRest (cfg : ErrorHandlerConfig) (result : DicenicValue) :
    List (MulOp × Expr) → Interp DicenicValue
  | [] => pure result
  | (op, e) :: rest => do
    let rightOperand ← evalExpr cfg e
    let r ← performArithmeticOperation result rightOperand
      (match op with | .mult => .mul | .div => .div | .mod => .mod)
    evalMulRest cfg r rest

end

mutual

/-- The statement visit methods. -/
def evalStmt (cfg : ErrorHandlerConfig) : Stmt → Interp DicenicValue
  | .ifStmt cond thenBranch elseBranch => do
    let conditionValue ← evalExpr cfg cond
    if TypeConverter.toBoolean conditionValue then
      evalStmt cfg thenBranch
    else
      match elseBranch with
      | some els => evalStmt cfg els
      | none => pure (numberValue 0)
  | .whileStmt cond body => do
    let (result, loopCount) ← whileAux cfg cond body 0 (numberValue 0)
    if loopCount ≥ maxLoopCount then
      ErrorHandler.handleLoopError cfg
        "While loop exceeded maximum iteration count, terminating to prevent infinite loop"
        "while" (some maxLoopCount) (-1) (-1)
    pure result
  | .exprStmt e => evalExpr cfg e
  | .block stmts => runStmts cfg stmts (numberValue 0)

/-- The loop of visitWhileStatement, carrying loopCount and the running
result; each iteration re-evaluates the condition, runs the body and
updates lastValue. -/
def whileAux (cfg : ErrorHandlerConfig) (cond : Expr) (body : Stmt)
    (loopCount : Nat) (result : DicenicValue) :
    Interp (DicenicValue × Nat) :=
  if loopCount < maxLoopCount then do
    let conditionValue ← evalExpr cfg cond
    if TypeConverter.toBoolean conditionValue then do
      let r ← evalStmt cfg body
      Interp.setLastValue r
      whileAux cfg cond body (loopCount + 1) r
    else
      pure (result, loopCount)
  else
    pure (result, loopCount)

/-- The shared statement loop of visitProgram and visitBlock: run each
statement, update lastValue with its result, return the last result (the
initial default Number(0) when the list is empty). -/
def runStmts (cfg : ErrorHandlerConfig) :
    List Stmt → DicenicValue → Interp DicenicValue
  | [], result => pure result
  | st :: rest, _prev => do
    let result ← evalStmt cfg st
    Interp.setLastValue result
    runStmts cfg rest result

end

/-- visitProgram: the statement loop from the default result. -/
def visitProgram (cfg : ErrorHandlerConfig) (prog : List Stmt) :
    Interp DicenicValue :=
  runStmts cfg prog (numberValue 0)

/-- interpret: reset lastValue, walk the program, return the stringified
lastValue. -/
def interpret (cfg : ErrorHandlerConfig) (prog : List Stmt) : Interp String := do
  Interp.setLastValue (numberValue 0)
  let _ ← visitProgram cfg prog
  let s ← Interp.getS
  pure (TypeConverter.toString s.lastValue)

end DicenicInterpreter

/-! ## executeScript (src/index.ts)

The lexer/parser phase is the out-of-scope front end, so the model takes the
already-parsed program (the hasErrors = false path of executeScript). -/

/-- ScriptResult. -/
structure ScriptResult where
  result : String
  errors : List String
  warnings : List String
  success : Bool
deriving DecidableEq, Repr

/-- The body of executeScript's try block: run the interpreter over a fresh
state built from the caller's pools and randomness stream, then package the
diagnostics; success is the emptiness of the error list. -/
def executeScriptCore (prog : List Stmt) (cfg : ErrorHandlerConfig)
    (ctx : ExecutionContext) (rand : List ℚ) :
    Except Thrown ScriptResult × InterpState :=
  (do
    let result ← DicenicInterpreter.interpret cfg prog
    let s ← Interp.getS
    let errs := s.errors.map DicenicError.getFormattedMessage
    Interp.pure' (ScriptResult.mk result errs s.warnings errs.isEmpty))
    (initState ctx rand)

/-- executeScript: the try result on normal completion; the catch clause
turns any thrown error into a failed result carrying only that error's
message. -/
def executeScript (prog : List Stmt) (cfg : ErrorHandlerConfig)
    (ctx : ExecutionContext) (rand : List ℚ) : ScriptResult :=
  match (executeScriptCore prog cfg ctx rand).1 with
  | .ok r => r
  | .error e => ScriptResult.mk "" [e.message] [] false

/-! ## The spec's interpolation classifier (for claim C7)

C7 states the classification rule of spec.md §4.4 verbatim; the following
definition renders the claim's own words so it can be compared with the
source classifier isSpecialVariableExpression. -/

/-- The claim's classifier, following the spec text: a body is a
special-variable reference iff its length is at least 2, its first character
is one of a, r, s, d, and the remainder is not composed entirely of ASCII
letters. -/
def claimIsSpecialVariableBody (body : String) : Bool :=
  2 ≤ body.toList.length &&
    ("arsd".toList.contains (body.toList.headD ' ')) &&
    !(StringInterpolator.isAllAsciiLetters body.toList.tail)

/-- The claim's resolution for a span body, following the spec text: a
classified body resolves through getSpecial(first character, remainder),
any other non-empty body through getLocal on the whole body. -/
def claimResolveBody (body : String) (ctx : ExecutionContext) : String :=
  if body = "" then ""
  else if claimIsSpecialVariableBody body then
    match ctx.getSpecialVariable (body.toList.headD ' ')
      (String.mk body.toList.tail) with
    | .ok v => TypeConverter.toString v
    | .error _ => ""
  else
    TypeConverter.toString (ctx.getVariable body)

/-- The two parse-tree shapes performAssignment accepts as assignment
targets (C10 quantifies over every other shape). -/
def isAssignTargetNode : Expr → Bool
  | .identifier _ => true
  | .specialVariable _ => true
  | _ => false

/-- The error-ceiling bound of claim C6, as an invariant of a monadic
computation: started below the ceiling, a computation that returns
normally stays below the ceiling, and one that throws has recorded at most
one error beyond it (the append that triggered the ceiling throw). -/
def ErrBound (cfg : ErrorHandlerConfig) {α : Type} (m : Interp α) : Prop :=
  ∀ s : InterpState, s.errors.length ≤ cfg.maxErrors →
    match m s with
    | (.ok _, s1) => s1.errors.length ≤ cfg.maxErrors
    | (.error _, s1) => s1.errors.length ≤ cfg.maxErrors + 1

/-- Errors-list preservation of a monadic computation (no append at all,
whether it returns or throws). -/
def ErrPreserve {α : Type} (m : Interp α) : Prop :=
  ∀ s : InterpState, ((m s).2).errors = s.errors

/-! # Theorems

First a small library of run lemmas that let simp execute the monad, then
the claims C1 to C10. -/

/-- Running a bind. -/
@[simp]
theorem Interp.bind_apply {α β : Type} (m : Interp α) (f : α → Interp β)
    (s : InterpState) :
    (m >>= f) s =
      match m s with
      | (.ok a, s1) => f a s1
      | (.error e, s1) => (.error e, s1) := rfl

/-- Running a pure value. -/
@[simp]
theorem Interp.pure_apply {α : Type} (a : α) (s : InterpState) :
    (pure a : Interp α) s = (.ok a, s) := rfl

/-- Running the primed pure. -/
@[simp]
theorem Interp.pure'_apply {α : Type} (a : α) (s : InterpState) :
    (Interp.pure' a : Interp α) s = (.ok a, s) := rfl

/-- Running a throw. -/
@[simp]
theorem Interp.throwT_apply {α : Type} (t : Thrown) (s : InterpState) :
    (Interp.throwT t : Interp α) s = (.error t, s) := rfl

/-- Running a state read. -/
@[simp]
theorem Interp.getS_apply (s : InterpState) : Interp.getS s = (.ok s, s) := rfl

/-- Running a state update. -/
@[simp]
theorem Interp.modifyS_apply (f : InterpState → InterpState) (s : InterpState) :
    Interp.modifyS f s = (.ok (), f s) := rfl

/-- Running a try/catch. -/
@[simp]
theorem Interp.tryCatch_apply {α : Type} (m : Interp α) (h : Thrown → Interp α)
    (s : InterpState) :
    Interp.tryCatch m h s =
      match m s with
      | (.ok a, s1) => (.ok a, s1)
      | (.error e, s1) => h e s1 := rfl

/-- Running the lastValue update. -/
@[simp]
theorem Interp.setLastValue_apply (v : DicenicValue) (s : InterpState) :
    Interp.setLastValue v s = (.ok (), { s with lastValue := v }) := rfl

/-- Running the context read. -/
@[simp]
theorem Interp.getCtx_apply (s : InterpState) :
    Interp.getCtx s = (.ok s.ctx, s) := rfl

/-- Running a context update. -/
@[simp]
theorem Interp.modifyCtx_apply (f : ExecutionContext → ExecutionContext)
    (s : InterpState) :
    Interp.modifyCtx f s = (.ok (), { s with ctx := f s.ctx }) := rfl

/-- toNumber on a number value. -/
@[simp]
theorem TypeConverter.toNumber_numberValue (q : ℚ) :
    TypeConverter.toNumber (numberValue q) = q := rfl

/-- toNumber on a string value. -/
@[simp]
theorem TypeConverter.toNumber_stringValue (s : String) :
    TypeConverter.toNumber (stringValue s) = (jsParseFloat s).getD 0 := rfl

/-- toBoolean on a number value. -/
@[simp]
theorem TypeConverter.toBoolean_numberValue (q : ℚ) :
    TypeConverter.toBoolean (numberValue q) = !decide (q = 0) := by
  simp [TypeConverter.toBoolean, numberValue]

/-- toBoolean on a string value. -/
@[simp]
theorem TypeConverter.toBoolean_stringValue (s : String) :
    TypeConverter.toBoolean (stringValue s) = !decide (s = "") := by
  simp [TypeConverter.toBoolean, stringValue]

/-- toString on a number value. -/
@[simp]
theorem TypeConverter.toString_numberValue (q : ℚ) :
    TypeConverter.toString (numberValue q) = jsNumToString q := rfl

/-- toString on a string value. -/
@[simp]
theorem TypeConverter.toString_stringValue (s : String) :
    TypeConverter.toString (stringValue s) = s := rfl

/-- Integer rationals print through intToString. -/
theorem jsNumToString_int (q : ℚ) (i : Int) (h1 : q.num = i) (h2 : q.den = 1)
    (s : String) (h3 : intToString i = s) : jsNumToString q = s := by
  subst h1 h3
  simp [jsNumToString, h2]

/-- C2: every division or modulo whose right operand coerces to the number 0
yields Number(0), records exactly one warning (and no error, no state
change otherwise), and throws nothing; in particular the script 10 / 0
returns "0" with one warning and success. -/
theorem c2_division_modulo_by_zero :
    (∀ (left right : DicenicValue) (op : ArithOp) (s : InterpState),
      (op = .div ∨ op = .mod) →
      TypeConverter.toNumber right = 0 →
      DicenicInterpreter.performArithmeticOperation left right op s =
        (.ok (numberValue 0),
         { s with warnings := s.warnings ++
             [if op = .div then "Division by zero, returning 0"
              else "Modulo by zero, returning 0"] })) ∧
    executeScript
        [.exprStmt (.multiplicative (.numberLiteral "10")
          [(.div, .numberLiteral "0")])]
        DEFAULT_ERROR_CONFIG emptyContext [] =
      ScriptResult.mk "0" [] ["Division by zero, returning 0"] true := by
  constructor
  · intro left right op s hop hz
    rcases hop with h | h <;> subst h <;>
      simp [DicenicInterpreter.performArithmeticOperation, hz,
        ErrorHandler.addPublicWarning, ErrorHandler.addWarning]
  · simp [executeScript, executeScriptCore, DicenicInterpreter.interpret,
      DicenicInterpreter.visitProgram, DicenicInterpreter.runStmts,
      DicenicInterpreter.evalStmt, DicenicInterpreter.evalExpr,
      DicenicInterpreter.evalMulRest,
      DicenicInterpreter.performArithmeticOperation,
      DicenicInterpreter.visitNumberLiteral, jsParseFloat,
      show jsParseFloatScan ['1','0'] = some (false, 10, 0, 0) from by decide,
      show jsParseFloatScan ['0'] = some (false, 0, 0, 0) from by decide,
      ratFromScan, DicenicInterpreter.isNonNumericString, initState,
      emptyContext, ErrorHandler.addPublicWarning, ErrorHandler.addWarning,
      Interp.setLastValue, DEFAULT_ERROR_CONFIG,
      jsNumToString_int (q := (0:ℚ)) (i := 0) (by norm_num) (by norm_num) "0"
        (by decide)]

/-- Witness for C2: the division branch applied at 10 / 0 from a fresh
state. -/
theorem c2_division_modulo_by_zero_witness :
    DicenicInterpreter.performArithmeticOperation (numberValue 10)
        (numberValue 0) .div (initState emptyContext []) =
      (.ok (numberValue 0),
       { initState emptyContext [] with
           warnings := ["Division by zero, returning 0"] }) := by
  simpa using c2_division_modulo_by_zero.1 (numberValue 10) (numberValue 0)
    .div (initState emptyContext []) (Or.inl rfl) rfl

/-- C4: in an || chain, once the running result is truthy the remaining
operands are skipped (no state change at all) and the chain yields
Number(1); dually for && with a falsy running result and Number(0); the
scripts 1 || (1/0) and 0 && (1/0) return "1" and "0" with zero warnings. -/
theorem c4_short_circuit :
    (∀ (cfg : ErrorHandlerConfig) (v : DicenicValue) (e : Expr)
       (rest : List Expr) (s : InterpState),
      TypeConverter.toBoolean v = true →
      DicenicInterpreter.evalOrRest cfg v (e :: rest) s =
        (.ok (numberValue 1), s)) ∧
    (∀ (cfg : ErrorHandlerConfig) (v : DicenicValue) (e : Expr)
       (rest : List Expr) (s : InterpState),
      TypeConverter.toBoolean v = false →
      DicenicInterpreter.evalAndRest cfg v (e :: rest) s =
        (.ok (numberValue 0), s)) ∧
    (∀ (cfg : ErrorHandlerConfig) (head : Expr) (e : Expr) (rest : List Expr)
       (s s1 : InterpState) (v : DicenicValue),
      DicenicInterpreter.evalExpr cfg head s = (.ok v, s1) →
      TypeConverter.toBoolean v = true →
      DicenicInterpreter.evalExpr cfg (.logicalOr head (e :: rest)) s =
        (.ok (numberValue 1), s1)) ∧
    executeScript
        [.exprStmt (.logicalOr (.numberLiteral "1")
          [.multiplicative (.numberLiteral "1") [(.div, .numberLiteral "0")]])]
        DEFAULT_ERROR_CONFIG emptyContext [] =
      ScriptResult.mk "1" [] [] true ∧
    executeScript
        [.exprStmt (.logicalAnd (.numberLiteral "0")
          [.multiplicative (.numberLiteral "1") [(.div, .numberLiteral "0")]])]
        DEFAULT_ERROR_CONFIG emptyContext [] =
      ScriptResult.mk "0" [] [] true := by
  have hor : ∀ (cfg : ErrorHandlerConfig) (v : DicenicValue) (e : Expr)
      (rest : List Expr) (s : InterpState),
      TypeConverter.toBoolean v = true →
      DicenicInterpreter.evalOrRest cfg v (e :: rest) s =
        (.ok (numberValue 1), s) := by
    intro cfg v e rest s h
    simp [DicenicInterpreter.evalOrRest, h]
  have hand : ∀ (cfg : ErrorHandlerConfig) (v : DicenicValue) (e : Expr)
      (rest : List Expr) (s : InterpState),
      TypeConverter.toBoolean v = false →
      DicenicInterpreter.evalAndRest cfg v (e :: rest) s =
        (.ok (numberValue 0), s) := by
    intro cfg v e rest s h
    simp [DicenicInterpreter.evalAndRest, h]
  refine ⟨hor, hand, ?_, ?_, ?_⟩
  · intro cfg head e rest s s1 v hhead hv
    simp [DicenicInterpreter.evalExpr, hhead, hor cfg v e rest s1 hv]
  · simp [executeScript, executeScriptCore, DicenicInterpreter.interpret,
      DicenicInterpreter.visitProgram, DicenicInterpreter.runStmts,
      DicenicInterpreter.evalStmt, DicenicInterpreter.evalExpr,
      DicenicInterpreter.evalOrRest, DicenicInterpreter.visitNumberLiteral,
      jsParseFloat,
      show jsParseFloatScan ['1'] = some (false, 1, 0, 0) from by decide,
      ratFromScan, initState, emptyContext, Interp.setLastValue,
      DEFAULT_ERROR_CONFIG,
      jsNumToString_int (q := (1:ℚ)) (i := 1) (by norm_num) (by norm_num) "1"
        (by decide)]
  · simp [executeScript, executeScriptCore, DicenicInterpreter.interpret,
      DicenicInterpreter.visitProgram, DicenicInterpreter.runStmts,
      DicenicInterpreter.evalStmt, DicenicInterpreter.evalExpr,
      DicenicInterpreter.evalAndRest, DicenicInterpreter.visitNumberLiteral,
      jsParseFloat,
      show jsParseFloatScan ['0'] = some (false, 0, 0, 0) from by decide,
      ratFromScan, initState, emptyContext, Interp.setLastValue,
      DEFAULT_ERROR_CONFIG,
      jsNumToString_int (q := (0:ℚ)) (i := 0) (by norm_num) (by norm_num) "0"
        (by decide)]

/-- Witness for C4: the || short circuit applied at a truthy left operand
with the 1/0 right operand pending, from a fresh state. -/
theorem c4_short_circuit_witness :
    DicenicInterpreter.evalOrRest DEFAULT_ERROR_CONFIG (numberValue 1)
        [.multiplicative (.numberLiteral "1") [(.div, .numberLiteral "0")]]
        (initState emptyContext []) =
      (.ok (numberValue 1), initState emptyContext []) :=
  c4_short_circuit.1 DEFAULT_ERROR_CONFIG (numberValue 1)
    (.multiplicative (.numberLiteral "1") [(.div, .numberLiteral "0")]) []
    (initState emptyContext []) (by norm_num)

/-- The statement loop splits over list append. -/
theorem runStmts_append (cfg : ErrorHandlerConfig) (xs ys : List Stmt)
    (r : DicenicValue) (s : InterpState) :
    DicenicInterpreter.runStmts cfg (xs ++ ys) r s =
      (DicenicInterpreter.runStmts cfg xs r >>= fun v =>
        DicenicInterpreter.runStmts cfg ys v) s := by
  induction xs generalizing r s with
  | nil => simp [DicenicInterpreter.runStmts]
  | cons st rest ih =>
    simp only [List.cons_append, DicenicInterpreter.runStmts,
      Interp.bind_apply]
    cases hst : DicenicInterpreter.evalStmt cfg st s with
    | mk out s1 =>
      cases out with
      | ok v => simp [ih]
      | error e => simp

/-- C8 counterexample: the claim says a script ending in a falsy-condition
if with no else returns the value of the preceding statement; the script
5 if (0) 3 would then return "5", but it returns "0", because visitProgram
stores the if statement's default Number(0) into lastValue. -/
theorem c8_counterexample :
    executeScript
        [.exprStmt (.numberLiteral "5"),
         .ifStmt (.numberLiteral "0") (.exprStmt (.numberLiteral "3")) none]
        DEFAULT_ERROR_CONFIG emptyContext [] =
      ScriptResult.mk "0" [] [] true ∧
    jsNumToString (TypeConverter.toNumber
      (DicenicInterpreter.visitNumberLiteral "5")) = "5" := by
  constructor
  · simp [executeScript, executeScriptCore, DicenicInterpreter.interpret,
      DicenicInterpreter.visitProgram, DicenicInterpreter.runStmts,
      DicenicInterpreter.evalStmt, DicenicInterpreter.evalExpr,
      DicenicInterpreter.visitNumberLiteral, jsParseFloat,
      show jsParseFloatScan ['5'] = some (false, 5, 0, 0) from by decide,
      show jsParseFloatScan ['0'] = some (false, 0, 0, 0) from by decide,
      ratFromScan, initState, emptyContext, Interp.setLastValue,
      DEFAULT_ERROR_CONFIG,
      jsNumToString_int (q := (0:ℚ)) (i := 0) (by norm_num) (by norm_num) "0"
        (by decide)]
  · simp [DicenicInterpreter.visitNumberLiteral, jsParseFloat,
      show jsParseFloatScan ['5'] = some (false, 5, 0, 0) from by decide,
      ratFromScan,
      jsNumToString_int (q := (5:ℚ)) (i := 5) (by norm_num) (by norm_num) "5"
        (by decide)]

/-- C8 as amended: visitIfStatement itself leaves the state of a falsy
condition untouched (lastValue included) and returns the default Number(0);
but the enclosing statement loop of visitProgram then assigns that
Number(0) to lastValue, so a program ending in such an if statement
evaluates to "0" regardless of the preceding statement's value. -/
theorem c8_if_without_else :
    (∀ (cfg : ErrorHandlerConfig) (cond : Expr) (thenBranch : Stmt)
       (s s1 : InterpState) (v : DicenicValue),
      DicenicInterpreter.evalExpr cfg cond s = (.ok v, s1) →
      TypeConverter.toBoolean v = false →
      DicenicInterpreter.evalStmt cfg (.ifStmt cond thenBranch none) s =
        (.ok (numberValue 0), s1)) ∧
    (∀ (cfg : ErrorHandlerConfig) (stmts : List Stmt) (cond : Expr)
       (thenBranch : Stmt) (ctx : ExecutionContext) (rand : List ℚ)
       (vp : DicenicValue) (s1 s2 : InterpState) (v : DicenicValue),
      DicenicInterpreter.runStmts cfg stmts (numberValue 0)
          (initState ctx rand) = (.ok vp, s1) →
      DicenicInterpreter.evalExpr cfg cond s1 = (.ok v, s2) →
      TypeConverter.toBoolean v = false →
      DicenicInterpreter.interpret cfg
          (stmts ++ [.ifStmt cond thenBranch none]) (initState ctx rand) =
        (.ok (jsNumToString 0), { s2 with lastValue := numberValue 0 })) := by
  have hif : ∀ (cfg : ErrorHandlerConfig) (cond : Expr) (thenBranch : Stmt)
      (s s1 : InterpState) (v : DicenicValue),
      DicenicInterpreter.evalExpr cfg cond s = (.ok v, s1) →
      TypeConverter.toBoolean v = false →
      DicenicInterpreter.evalStmt cfg (.ifStmt cond thenBranch none) s =
        (.ok (numberValue 0), s1) := by
    intro cfg cond thenBranch s s1 v hc hv
    simp [DicenicInterpreter.evalStmt, hc, hv]
  refine ⟨hif, ?_⟩
  intro cfg stmts cond thenBranch ctx rand vp s1 s2 v hpre hc hv
  have hinit : ({ initState ctx rand with lastValue := numberValue 0 }) =
      initState ctx rand := by
    simp [initState]
  simp only [DicenicInterpreter.interpret, DicenicInterpreter.visitProgram,
    Interp.bind_apply, Interp.setLastValue, Interp.modifyS_apply, hinit,
    runStmts_append, hpre, hif cfg cond thenBranch s1 s2 v hc hv,
    DicenicInterpreter.runStmts, Interp.pure_apply, Interp.getS_apply]
  simp [TypeConverter.toString, numberValue]

/-- Witness for C8's amended theorem: the if branch of the statement applied
at the falsy literal 0 condition. -/
theorem c8_if_without_else_witness :
    DicenicInterpreter.evalStmt DEFAULT_ERROR_CONFIG
        (.ifStmt (.numberLiteral "0") (.exprStmt (.numberLiteral "3")) none)
        (initState emptyContext []) =
      (.ok (numberValue 0), initState emptyContext []) := by
  refine c8_if_without_else.1 DEFAULT_ERROR_CONFIG (.numberLiteral "0")
    (.exprStmt (.numberLiteral "3")) (initState emptyContext [])
    (initState emptyContext []) (DicenicInterpreter.visitNumberLiteral "0")
    (by simp [DicenicInterpreter.evalExpr]) ?_
  simp [DicenicInterpreter.visitNumberLiteral, jsParseFloat,
    show jsParseFloatScan ['0'] = some (false, 0, 0, 0) from by decide,
    ratFromScan]

/-- performAssignment on a target that is neither an identifier nor a
special variable throws the plain invalid-left-hand-side Error without
touching the state, for every operator and config. -/
theorem performAssignment_invalid_lhs (cfg : ErrorHandlerConfig) (lhs : Expr)
    (vr : DicenicValue) (op : AssignOp) (s : InterpState)
    (h : isAssignTargetNode lhs = false) :
    DicenicInterpreter.performAssignment cfg lhs vr op s =
      (.error (.plainError "Invalid left-hand side in assignment"), s) := by
  cases lhs <;> simp [isAssignTargetNode] at h ⊢ <;>
    cases op <;> simp [DicenicInterpreter.performAssignment]

/-- C10: a script whose statement list reaches an assignment with an
invalid target aborts there for every config (recovery setting included):
the thrown plain Error is caught only by executeScript, which returns
success false, result "" and just that message, discarding every
diagnostic recorded earlier; concretely, $rx = 1 followed by 5 = 3 loses
the recorded VariableAccess error. -/
theorem c10_invalid_assignment_target :
    (∀ (cfg : ErrorHandlerConfig) (ctx : ExecutionContext) (rand : List ℚ)
       (stmts1 stmts2 : List Stmt) (lhs rhs : Expr) (op : AssignOp)
       (vp vr : DicenicValue) (s1 s2 : InterpState),
      isAssignTargetNode lhs = false →
      DicenicInterpreter.runStmts cfg stmts1 (numberValue 0)
          (initState ctx rand) = (.ok vp, s1) →
      DicenicInterpreter.evalExpr cfg rhs s1 = (.ok vr, s2) →
      executeScript
          (stmts1 ++ .exprStmt (.assignment lhs (some (op, rhs))) :: stmts2)
          cfg ctx rand =
        ScriptResult.mk "" ["Invalid left-hand side in assignment"] [] false) ∧
    executeScript
        [.exprStmt (.assignment (.specialVariable "$rx")
           (some (.assign, .numberLiteral "1"))),
         .exprStmt (.assignment (.numberLiteral "5")
           (some (.assign, .numberLiteral "3")))]
        DEFAULT_ERROR_CONFIG emptyContext [] =
      ScriptResult.mk "" ["Invalid left-hand side in assignment"] [] false := by
  constructor
  · intro cfg ctx rand stmts1 stmts2 lhs rhs op vp vr s1 s2 hlhs hpre hrhs
    simp only [executeScript, executeScriptCore, DicenicInterpreter.interpret,
      DicenicInterpreter.visitProgram, Interp.bind_apply,
      Interp.setLastValue_apply]
    have hinit : ({ initState ctx rand with lastValue := numberValue 0 }) =
        initState ctx rand := by
      simp [initState]
    rw [hinit, runStmts_append]
    simp only [Interp.bind_apply, hpre, DicenicInterpreter.runStmts,
      DicenicInterpreter.evalStmt, DicenicInterpreter.evalExpr,
      Interp.bind_apply, hrhs,
      performAssignment_invalid_lhs cfg lhs vr op s2 hlhs, Thrown.message]
  · simp [executeScript, executeScriptCore, DicenicInterpreter.interpret,
      DicenicInterpreter.visitProgram, DicenicInterpreter.runStmts,
      DicenicInterpreter.evalStmt, DicenicInterpreter.evalExpr,
      DicenicInterpreter.performAssignment, DicenicInterpreter.visitNumberLiteral,
      jsParseFloat,
      show jsParseFloatScan ['1'] = some (false, 1, 0, 0) from by decide,
      show jsParseFloatScan ['3'] = some (false, 3, 0, 0) from by decide,
      ratFromScan, initState, emptyContext, Interp.setLastValue,
      DEFAULT_ERROR_CONFIG, jsStartsWith,
      ExecutionContext.canWriteSpecialVariable,
      ErrorHandler.handleVariableAccessError, ErrorHandler.addError,
      Thrown.message]

/-- Witness for C10: the empty statement prefix and the assignment 5 = 3
under the default (recovery enabled) config. -/
theorem c10_invalid_assignment_target_witness :
    executeScript
        [.exprStmt (.assignment (.numberLiteral "5")
          (some (.assign, .numberLiteral "3")))]
        DEFAULT_ERROR_CONFIG emptyContext [] =
      ScriptResult.mk "" ["Invalid left-hand side in assignment"] [] false := by
  refine c10_invalid_assignment_target.1 DEFAULT_ERROR_CONFIG emptyContext []
    [] [] (.numberLiteral "5") (.numberLiteral "3") .assign (numberValue 0)
    (DicenicInterpreter.visitNumberLiteral "3") (initState emptyContext [])
    (initState emptyContext []) rfl (by simp [DicenicInterpreter.runStmts])
    (by simp [DicenicInterpreter.evalExpr])

/-- C5 counterexample: with recovery enabled and the error count far below
maxErrors, the script 5 = 3 still drives the interpreter into the abrupt
throwing mode internally, and executeScript nevertheless returns a
structured result instead of letting the embedder catch anything — so the
throwing failure mode neither occurs exactly under the claimed conditions
nor reaches the call site. -/
theorem c5_counterexample :
    DEFAULT_ERROR_CONFIG.enableRecovery = true ∧
    (executeScriptCore
        [.exprStmt (.assignment (.numberLiteral "5")
          (some (.assign, .numberLiteral "3")))]
        DEFAULT_ERROR_CONFIG emptyContext []).1 =
      .error (.plainError "Invalid left-hand side in assignment") ∧
    (executeScriptCore
        [.exprStmt (.assignment (.numberLiteral "5")
          (some (.assign, .numberLiteral "3")))]
        DEFAULT_ERROR_CONFIG emptyContext []).2.errors = [] ∧
    executeScript
        [.exprStmt (.assignment (.numberLiteral "5")
          (some (.assign, .numberLiteral "3")))]
        DEFAULT_ERROR_CONFIG emptyContext [] =
      ScriptResult.mk "" ["Invalid left-hand side in assignment"] [] false := by
  refine ⟨rfl, ?_, ?_, ?_⟩ <;>
    simp [executeScript, executeScriptCore, DicenicInterpreter.interpret,
      DicenicInterpreter.visitProgram, DicenicInterpreter.runStmts,
      DicenicInterpreter.evalStmt, DicenicInterpreter.evalExpr,
      DicenicInterpreter.performAssignment, initState, emptyContext,
      Thrown.message]

/-- C5 as amended: executeScript never throws — it always returns a
structured result; a normal inner completion is returned as-is with
success exactly when the formatted error list is empty, and an inner
abrupt throw (possible with recovery disabled, past the error ceiling, or
on an invalid assignment target even with recovery on) is caught inside
executeScript and surfaced as success false, result "" and only that
error's message. -/
theorem c5_run_never_throws :
    ∀ (prog : List Stmt) (cfg : ErrorHandlerConfig) (ctx : ExecutionContext)
      (rand : List ℚ),
      (∀ (r : ScriptResult) (s1 : InterpState),
        executeScriptCore prog cfg ctx rand = (.ok r, s1) →
        executeScript prog cfg ctx rand = r ∧
        r.errors = s1.errors.map DicenicError.getFormattedMessage ∧
        r.warnings = s1.warnings ∧
        r.success = r.errors.isEmpty) ∧
      (∀ (e : Thrown) (s1 : InterpState),
        executeScriptCore prog cfg ctx rand = (.error e, s1) →
        executeScript prog cfg ctx rand =
          ScriptResult.mk "" [e.message] [] false) := by
  intro prog cfg ctx rand
  constructor
  · intro r s1 hcore
    have hrun : executeScript prog cfg ctx rand = r := by
      simp [executeScript, hcore]
    refine ⟨hrun, ?_, ?_, ?_⟩ <;>
      · revert hcore
        simp only [executeScriptCore, Interp.bind_apply]
        cases hi : DicenicInterpreter.interpret cfg prog (initState ctx rand) with
        | mk out s2 =>
          cases out with
          | ok v =>
            simp only [Interp.getS_apply, Interp.pure'_apply]
            intro h
            cases h
            simp
          | error e => intro h; cases h
  · intro e s1 hcore
    simp [executeScript, hcore]

/-- Witness for C5's amended theorem: the empty program completes normally
and executeScript hands its structured result through. -/
theorem c5_run_never_throws_witness :
    executeScript [] DEFAULT_ERROR_CONFIG emptyContext [] =
      ScriptResult.mk "0" [] [] true :=
  ((c5_run_never_throws [] DEFAULT_ERROR_CONFIG emptyContext []).1
    (ScriptResult.mk "0" [] [] true) (initState emptyContext [])
    (by simp [executeScriptCore, DicenicInterpreter.interpret,
      DicenicInterpreter.visitProgram, DicenicInterpreter.runStmts,
      initState, emptyContext,
      jsNumToString_int (q := (0:ℚ)) (i := 0) (by norm_num) (by norm_num) "0"
        (by decide)])).1


/-- performArithmeticOperation is total: it always returns a value, the only
state effect being at most one appended warning. -/
theorem performArithmeticOperation_total (l r : DicenicValue) (aop : ArithOp)
    (s : InterpState) :
    ∃ v w, DicenicInterpreter.performArithmeticOperation l r aop s =
      (.ok v, { s with warnings := s.warnings ++ w }) := by
  simp only [DicenicInterpreter.performArithmeticOperation]
  split
  · exact ⟨stringValue (TypeConverter.toString l ++ TypeConverter.toString r),
      [], by simp⟩
  · cases aop
    · exact ⟨numberValue (TypeConverter.toNumber l + TypeConverter.toNumber r),
        [], by simp⟩
    · exact ⟨numberValue (TypeConverter.toNumber l - TypeConverter.toNumber r),
        [], by simp⟩
    · exact ⟨numberValue (TypeConverter.toNumber l * TypeConverter.toNumber r),
        [], by simp⟩
    · split
      · exact ⟨numberValue 0, ["Division by zero, returning 0"], by
          simp [ErrorHandler.addPublicWarning, ErrorHandler.addWarning]⟩
      · exact ⟨numberValue (TypeConverter.toNumber l / TypeConverter.toNumber r),
          [], by simp⟩
    · split
      · exact ⟨numberValue 0, ["Modulo by zero, returning 0"], by
          simp [ErrorHandler.addPublicWarning, ErrorHandler.addWarning]⟩
      · exact ⟨numberValue (jsRem (TypeConverter.toNumber l)
          (TypeConverter.toNumber r)), [], by simp⟩

/-- The token shape of a well-formed special variable $ + prefix + name. -/
theorem specialText_parts (pfx a : Char) (as : List Char) :
    jsStartsWith (String.mk ('$' :: pfx :: a :: as)) "$" = true ∧
    (String.mk ('$' :: pfx :: a :: as)).toList.length > 2 ∧
    (String.mk ('$' :: pfx :: a :: as)).toList.getD 1 ' ' = pfx ∧
    (String.mk ('$' :: pfx :: a :: as)).toList.drop 2 = a :: as := by
  refine ⟨?_, ?_, rfl, rfl⟩
  · simp [jsStartsWith, List.isPrefixOf]
  · simp only [String.toList, List.length_cons, gt_iff_lt]
    omega

/-- C1: an assignment whose target is a special variable with prefix r or s
never mutates any pool: after the right-hand side's own evaluation (and,
for compound operators, the current-value read and arithmetic combination,
which is total and at most appends a warning), the assignment step appends
exactly one VariableAccess error and leaves the context untouched; when
recovery is enabled and the ceiling is not passed the expression still
evaluates to the computed would-be value; when the ceiling is passed the
append throws a Runtime error, and with recovery disabled the
VariableAccess error itself is thrown — in every case the returned state's
pools are those the right-hand side left behind. -/
theorem c1_readonly_special_write :
    (∀ (cfg : ErrorHandlerConfig) (pfx : Char) (name : List Char)
       (rhs : Expr) (s s1 : InterpState) (vr : DicenicValue),
      (pfx = 'r' ∨ pfx = 's') → name ≠ [] →
      DicenicInterpreter.evalExpr cfg rhs s = (.ok vr, s1) →
      DicenicInterpreter.evalExpr cfg
          (.assignment (.specialVariable (String.mk ('$' :: pfx :: name)))
            (some (.assign, rhs))) s =
        (let text := String.mk ('$' :: pfx :: name)
         let e := DicenicError.variableAccessError
           ("Cannot write to read-only variable: " ++ text) text .write (-1) (-1)
         let s2 := { s1 with errors := s1.errors ++ [e] }
         if cfg.maxErrors < s1.errors.length + 1 then
           (.error (.dicenic (.runtimeError
             ("Too many errors (" ++ toString (s1.errors.length + 1) ++
               "), stopping execution") (-1) (-1)
             (some "Error limit exceeded"))), s2)
         else if cfg.enableRecovery = false then (.error (.dicenic e), s2)
         else (.ok vr, s2))) ∧
    (∀ (cfg : ErrorHandlerConfig) (pfx : Char) (name : List Char)
       (rhs : Expr) (s s1 : InterpState) (vr currentV fv : DicenicValue)
       (w : List String) (op : AssignOp) (aop : ArithOp),
      (pfx = 'r' ∨ pfx = 's') → name ≠ [] →
      ((op, aop) = (.plusAssign, .add) ∨ (op, aop) = (.minusAssign, .sub) ∨
       (op, aop) = (.multAssign, .mul) ∨ (op, aop) = (.divAssign, .div) ∨
       (op, aop) = (.modAssign, .mod)) →
      DicenicInterpreter.evalExpr cfg rhs s = (.ok vr, s1) →
      s1.ctx.getSpecialVariable pfx (String.mk name) = .ok currentV →
      DicenicInterpreter.performArithmeticOperation currentV vr aop s1 =
        (.ok fv, { s1 with warnings := s1.warnings ++ w }) →
      DicenicInterpreter.evalExpr cfg
          (.assignment (.specialVariable (String.mk ('$' :: pfx :: name)))
            (some (op, rhs))) s =
        (let text := String.mk ('$' :: pfx :: name)
         let e := DicenicError.variableAccessError
           ("Cannot write to read-only variable: " ++ text) text .write (-1) (-1)
         let s2 := { s1 with warnings := s1.warnings ++ w,
                             errors := s1.errors ++ [e] }
         if cfg.maxErrors < s1.errors.length + 1 then
           (.error (.dicenic (.runtimeError
             ("Too many errors (" ++ toString (s1.errors.length + 1) ++
               "), stopping execution") (-1) (-1)
             (some "Error limit exceeded"))), s2)
         else if cfg.enableRecovery = false then (.error (.dicenic e), s2)
         else (.ok fv, s2))) := by
  constructor
  · intro cfg pfx name rhs s s1 vr hpfx hname hrhs
    obtain ⟨a, as, rfl⟩ := List.exists_cons_of_ne_nil hname
    obtain ⟨h1, h2, h3, h4⟩ := specialText_parts pfx a as
    have hcw : s1.ctx.canWriteSpecialVariable pfx = false := by
      rcases hpfx with h | h <;> subst h <;>
        simp [ExecutionContext.canWriteSpecialVariable]
    simp only [DicenicInterpreter.evalExpr, Interp.bind_apply, hrhs,
      DicenicInterpreter.performAssignment, Interp.pure_apply,
      Interp.getS_apply, h1, h2, h3, h4, if_true, and_true, true_and, hcw,
      Bool.false_eq_true, not_false_eq_true,
      ErrorHandler.handleVariableAccessError, ErrorHandler.addError,
      Interp.bind_apply, List.length_append, List.length_cons,
      List.length_nil, Interp.throwT_apply]
    by_cases hceil : cfg.maxErrors < s1.errors.length + 1
    · simp [hceil, gt_iff_lt]
    · by_cases hrec : cfg.enableRecovery <;>
        simp [hceil, hrec, gt_iff_lt]
  · intro cfg pfx name rhs s s1 vr currentV fv w op aop hpfx hname hop hrhs
      hcur harith
    obtain ⟨a, as, rfl⟩ := List.exists_cons_of_ne_nil hname
    obtain ⟨h1, h2, h3, h4⟩ := specialText_parts pfx a as
    have hcw : ∀ c : ExecutionContext, c.canWriteSpecialVariable pfx = false := by
      intro c
      rcases hpfx with h | h <;> subst h <;>
        simp [ExecutionContext.canWriteSpecialVariable]
    have hread : DicenicInterpreter.getSpecialVariableI pfx
        (String.mk (a :: as)) s1 = (.ok currentV, s1) := by
      simp [DicenicInterpreter.getSpecialVariableI, hcur]
    rcases hop with h | h | h | h | h <;>
      (cases h
       simp only [DicenicInterpreter.evalExpr, Interp.bind_apply, hrhs,
         DicenicInterpreter.performAssignment, Interp.pure_apply,
         Interp.getS_apply, h1, h2, h3, h4, if_true, and_true, true_and,
         hread, harith, hcw,
         Bool.false_eq_true, not_false_eq_true,
         ErrorHandler.handleVariableAccessError, ErrorHandler.addError,
         Interp.bind_apply, List.length_append, List.length_cons,
         List.length_nil, Interp.throwT_apply]
       by_cases hceil : cfg.maxErrors < s1.errors.length + 1
       · simp [hceil, gt_iff_lt]
       · by_cases hrec : cfg.enableRecovery <;>
           simp [hceil, hrec, gt_iff_lt])

/-- Witness for C1: the write $rx = 1 under the default config records one
VariableAccessError, changes no pool, and still evaluates to 1. -/
theorem c1_readonly_special_write_witness :
    DicenicInterpreter.evalExpr DEFAULT_ERROR_CONFIG
        (.assignment (.specialVariable (String.mk ['$', 'r', 'x']))
          (some (.assign, .numberLiteral "1")))
        (initState emptyContext []) =
      (.ok (DicenicInterpreter.visitNumberLiteral "1"),
       { initState emptyContext [] with
           errors := [DicenicError.variableAccessError
             ("Cannot write to read-only variable: " ++ String.mk ['$', 'r', 'x'])
             (String.mk ['$', 'r', 'x']) .write (-1) (-1)] }) := by
  have h := c1_readonly_special_write.1 DEFAULT_ERROR_CONFIG 'r' ['x']
    (.numberLiteral "1") (initState emptyContext [])
    (initState emptyContext []) (DicenicInterpreter.visitNumberLiteral "1")
    (Or.inl rfl) (by simp) (by simp [DicenicInterpreter.evalExpr])
  simpa [DEFAULT_ERROR_CONFIG, initState] using h

/-- C7 counterexample: the body a1 satisfies the claim's classification rule
(length ≥ 2, first character a, remainder "1" not ASCII letters), yet the
source classifies it as a local variable — it is resolved through getLocal
on "a1" and not through getSpecial(a, "1"), observably so when the two
pools disagree. -/
theorem c7_counterexample :
    StringInterpolator.isSpecialVariableExpression "a1" = false ∧
    claimIsSpecialVariableBody "a1" = true ∧
    StringInterpolator.interpolate "{$a1}"
        { emptyContext with vars := [("a1", stringValue "L")],
                            attributes := [("1", stringValue "S")] } = "L" ∧
    claimResolveBody "a1"
        { emptyContext with vars := [("a1", stringValue "L")],
                            attributes := [("1", stringValue "S")] } = "S" := by
  refine ⟨by decide, by decide, by decide, by decide⟩

/-- C7 as amended: interpolate classifies a span body (after trimming) as a
special-variable reference iff its length is at least 2, its first
character is one of a, r, s, d, its remainder is not composed entirely of
ASCII letters, and additionally the remainder contains a CJK character
(U+4E00 to U+9FA5) or begins with an underscore; a body so classified is
resolved via getSpecial(first character, remainder) (degrading to "" on an
internal lookup error), and any other body with a non-empty trimmed form
is resolved as a local variable via getLocal on the trimmed body. -/
theorem c7_interpolation_classifier :
    (∀ body : String,
      StringInterpolator.isSpecialVariableExpression body = true ↔
        (2 ≤ body.toList.length ∧
         body.toList.headD ' ' ∈ ['a', 'r', 's', 'd'] ∧
         ¬ StringInterpolator.isAllAsciiLetters body.toList.tail = true ∧
         (StringInterpolator.hasCjkChar body.toList.tail = true ∨
          body.toList.tail.headD ' ' = '_'))) ∧
    (∀ (body : String) (ctx : ExecutionContext),
      StringInterpolator.isSpecialVariableExpression (jsTrim body) = true →
      StringInterpolator.evaluateExpression body ctx =
        (match ctx.getSpecialVariable ((jsTrim body).toList.headD ' ')
            (String.mk (jsTrim body).toList.tail) with
         | .ok v => TypeConverter.toString v
         | .error _ => "")) ∧
    (∀ (body : String) (ctx : ExecutionContext),
      jsTrim body ≠ "" →
      StringInterpolator.isSpecialVariableExpression (jsTrim body) = false →
      StringInterpolator.evaluateExpression body ctx =
        TypeConverter.toString (ctx.getVariable (jsTrim body))) := by
  refine ⟨?_, ?_, ?_⟩
  · intro body
    simp only [StringInterpolator.isSpecialVariableExpression]
    by_cases hlen : body.toList.length < 2
    · simp only [hlen, if_true]
      constructor
      · intro h; cases h
      · intro h; omega
    · simp only [hlen, if_false]
      by_cases hfirst : ("arsd".toList.contains (body.toList.headD ' ')) = true
      · simp only [hfirst, Bool.not_true, if_false]
        by_cases hall : StringInterpolator.isAllAsciiLetters body.toList.tail = true
        · simp only [hall, if_true]
          constructor
          · intro h; cases h
          · intro h
            exact absurd trivial h.2.2.1
        · simp only [hall, if_false]
          constructor
          · intro h
            refine ⟨by omega, ?_, by simp, by simpa using h⟩
            revert hfirst
            simp
          · intro h
            simpa using h.2.2.2
      · simp only [hfirst, if_false]
        constructor
        · intro h; cases h
        · intro h
          refine absurd ?_ hfirst
          simpa using h.2.1
  · intro body ctx hspec
    have hne : jsTrim body ≠ "" := by
      intro h
      rw [h] at hspec
      exact absurd hspec (by decide)
    have hlen : ¬ ((jsTrim body).toList.length < 2) := by
      intro hc
      rw [StringInterpolator.isSpecialVariableExpression, if_pos hc] at hspec
      cases hspec
    have htail : (jsTrim body).toList.tail ≠ [] := by
      intro h
      have hl2 : (jsTrim body).toList.tail.length = 0 := by rw [h]; rfl
      rw [List.length_tail] at hl2
      omega
    have hmk : String.mk (jsTrim body).toList.tail ≠ "" := by
      intro h
      apply htail
      have hd : (String.mk (jsTrim body).toList.tail).data = ("" : String).data :=
        congrArg String.data h
      simpa using hd
    simp only [StringInterpolator.evaluateExpression, hne, if_false, hspec,
      if_true, StringInterpolator.evaluateSpecialVariable, String.toList] at hmk ⊢
    simp [hmk]
  · intro body ctx hne hspec
    simp [StringInterpolator.evaluateExpression, hne, hspec,
      StringInterpolator.evaluateNormalVariable]

/-- Witness for C7's amended theorem: the body a_ (underscore remainder) is
classified special and resolves through the attribute pool. -/
theorem c7_interpolation_classifier_witness :
    StringInterpolator.evaluateExpression "a_"
        { emptyContext with attributes := [("_", stringValue "S")] } = "S" := by
  have h := c7_interpolation_classifier.2.1 "a_"
    { emptyContext with attributes := [("_", stringValue "S")] } (by decide)
  rw [h]
  decide

/-- One full unrolling of the while loop under an always-truthy, effect-free
condition and a never-throwing body: from iteration k with n = ceiling - k
rounds left, the loop runs the body n more times (each followed by the
lastValue update) and reports loopCount = ceiling. -/
theorem whileAux_unroll (cfg : ErrorHandlerConfig) (cond : Expr) (body : Stmt)
    (cv bv : InterpState → DicenicValue) (bs : InterpState → InterpState)
    (hcond : ∀ s, DicenicInterpreter.evalExpr cfg cond s = (.ok (cv s), s))
    (htrue : ∀ s, TypeConverter.toBoolean (cv s) = true)
    (hbody : ∀ s, DicenicInterpreter.evalStmt cfg body s = (.ok (bv s), bs s)) :
    ∀ (n k : Nat) (r : DicenicValue) (s : InterpState),
      k + n = DicenicInterpreter.maxLoopCount →
      DicenicInterpreter.whileAux cfg cond body k r s =
        (.ok ((if n = 0 then r
               else bv ((fun st => { bs st with lastValue := bv st })^[n - 1] s)),
              DicenicInterpreter.maxLoopCount),
         (fun st => { bs st with lastValue := bv st })^[n] s) := by
  intro n
  induction n with
  | zero =>
    intro k r s hk
    rw [DicenicInterpreter.whileAux]
    simp only [Nat.add_zero] at hk
    subst hk
    simp
  | succ n ih =>
    intro k r s hk
    have hklt : k < DicenicInterpreter.maxLoopCount := by omega
    rw [DicenicInterpreter.whileAux, if_pos hklt]
    simp only [Interp.bind_apply, hcond s, htrue s, if_true, hbody s,
      Interp.setLastValue_apply]
    rw [ih (k + 1) (bv s) { bs s with lastValue := bv s } (by omega)]
    rcases Nat.eq_zero_or_pos n with hn | hn
    · subst hn
      simp
    · have h1 : n ≠ 0 := by omega
      have h2 : n + 1 ≠ 0 := by omega
      simp only [h1, h2, if_false, ← Function.iterate_succ_apply,
        Nat.succ_sub_one]
      have h3 : (n - 1).succ = n := by omega
      rw [h3]


/-- C3: a while loop whose condition stays truthy (and effect-free) and
whose body never throws terminates: the body runs exactly 10000 times
(each run followed by the lastValue update), the loop's result is the
value the 10000th body run computed, exactly one Loop warning is appended
afterwards, and the error list is exactly what the body runs themselves
left behind — the ceiling records no error. -/
theorem c3_while_ceiling (cfg : ErrorHandlerConfig) (cond : Expr) (body : Stmt)
    (cv bv : InterpState → DicenicValue) (bs : InterpState → InterpState)
    (s0 : InterpState)
    (hcond : ∀ s, DicenicInterpreter.evalExpr cfg cond s = (.ok (cv s), s))
    (htrue : ∀ s, TypeConverter.toBoolean (cv s) = true)
    (hbody : ∀ s, DicenicInterpreter.evalStmt cfg body s = (.ok (bv s), bs s)) :
    DicenicInterpreter.evalStmt cfg (.whileStmt cond body) s0 =
      (.ok (bv ((fun st => { bs st with lastValue := bv st })^[9999] s0)),
       { (fun st => { bs st with lastValue := bv st })^[10000] s0 with
           warnings :=
             ((fun st => { bs st with lastValue := bv st })^[10000] s0).warnings ++
               [(DicenicError.loopError
                  "While loop exceeded maximum iteration count, terminating to prevent infinite loop"
                  "while" (some 10000) (-1) (-1)).getFormattedMessage] }) ∧
    (DicenicInterpreter.evalStmt cfg (.whileStmt cond body) s0).2.errors =
      ((fun st => { bs st with lastValue := bv st })^[10000] s0).errors := by
  have hmain := whileAux_unroll cfg cond body cv bv bs hcond htrue hbody
    10000 0 (numberValue 0) s0 (by simp [DicenicInterpreter.maxLoopCount])
  have hrun : DicenicInterpreter.evalStmt cfg (.whileStmt cond body) s0 =
      (.ok (bv ((fun st => { bs st with lastValue := bv st })^[9999] s0)),
       { (fun st => { bs st with lastValue := bv st })^[10000] s0 with
           warnings :=
             ((fun st => { bs st with lastValue := bv st })^[10000] s0).warnings ++
               [(DicenicError.loopError
                  "While loop exceeded maximum iteration count, terminating to prevent infinite loop"
                  "while" (some 10000) (-1) (-1)).getFormattedMessage] }) := by
    rw [DicenicInterpreter.evalStmt]
    simp only [Interp.bind_apply, hmain]
    simp only [ge_iff_le, le_refl, if_true,
      ErrorHandler.handleLoopError, ErrorHandler.addWarning,
      Interp.modifyS_apply, Interp.bind_apply, Interp.pure_apply,
      show DicenicInterpreter.maxLoopCount = 10000 from rfl,
      show ((10000 : Nat) = 0) = False from by simp,
      if_false, show (10000 : Nat) - 1 = 9999 from rfl]
  exact ⟨hrun, by rw [hrun]⟩

/-- Witness for C3: the loop while (1) 2 from a fresh state, whose body is
the literal 2 and leaves the state unchanged apart from lastValue. -/
theorem c3_while_ceiling_witness :
    DicenicInterpreter.evalStmt DEFAULT_ERROR_CONFIG
        (.whileStmt (.numberLiteral "1") (.exprStmt (.numberLiteral "2")))
        (initState emptyContext []) =
      (.ok ((fun _ => DicenicInterpreter.visitNumberLiteral "2")
          ((fun st => { (fun st' => st') st with
              lastValue := DicenicInterpreter.visitNumberLiteral "2" })^[9999]
            (initState emptyContext []))),
       { (fun st => { (fun st' => st') st with
             lastValue := DicenicInterpreter.visitNumberLiteral "2" })^[10000]
           (initState emptyContext []) with
           warnings :=
             ((fun st => { (fun st' => st') st with
                 lastValue := DicenicInterpreter.visitNumberLiteral "2" })^[10000]
               (initState emptyContext [])).warnings ++
               [(DicenicError.loopError
                  "While loop exceeded maximum iteration count, terminating to prevent infinite loop"
                  "while" (some 10000) (-1) (-1)).getFormattedMessage] }) :=
  (c3_while_ceiling DEFAULT_ERROR_CONFIG (.numberLiteral "1")
    (.exprStmt (.numberLiteral "2"))
    (fun _ => DicenicInterpreter.visitNumberLiteral "1")
    (fun _ => DicenicInterpreter.visitNumberLiteral "2")
    (fun st => st) (initState emptyContext [])
    (by intro s; simp [DicenicInterpreter.evalExpr])
    (by
      intro s
      simp [DicenicInterpreter.visitNumberLiteral, jsParseFloat,
        show jsParseFloatScan ['1'] = some (false, 1, 0, 0) from by decide,
        ratFromScan])
    (by intro s; simp [DicenicInterpreter.evalStmt,
      DicenicInterpreter.evalExpr])).1

/-- An errors-preserving computation satisfies the bound. -/
theorem ErrBound.of_preserve {cfg : ErrorHandlerConfig} {α : Type}
    {m : Interp α} (h : ErrPreserve m) : ErrBound cfg m := by
  intro s hs
  have := h s
  cases hm : m s with
  | mk out s1 =>
    rw [hm] at this
    cases out with
    | ok a => simp_all
    | error e => simp_all; omega

/-- pure preserves the error list. -/
theorem ErrPreserve.pure {α : Type} (a : α) :
    ErrPreserve (pure a : Interp α) := fun _ => rfl

/-- pure' preserves the error list. -/
theorem ErrPreserve.pure' {α : Type} (a : α) :
    ErrPreserve (Interp.pure' a : Interp α) := fun _ => rfl

/-- throw preserves the error list. -/
theorem ErrPreserve.throwT {α : Type} (t : Thrown) :
    ErrPreserve (Interp.throwT t : Interp α) := fun _ => rfl

/-- getS preserves the error list. -/
theorem ErrPreserve.getS : ErrPreserve Interp.getS := fun _ => rfl

/-- Any state update leaving the errors field alone preserves it. -/
theorem ErrPreserve.modifyS (f : InterpState → InterpState)
    (h : ∀ s, (f s).errors = s.errors) :
    ErrPreserve (Interp.modifyS f) := fun s => h s

/-- setLastValue preserves the error list. -/
theorem ErrPreserve.setLastValue (v : DicenicValue) :
    ErrPreserve (Interp.setLastValue v) := fun _ => rfl

/-- modifyCtx preserves the error list. -/
theorem ErrPreserve.modifyCtx (f : ExecutionContext → ExecutionContext) :
    ErrPreserve (Interp.modifyCtx f) := fun _ => rfl

/-- nextRandom preserves the error list. -/
theorem ErrPreserve.nextRandom : ErrPreserve Interp.nextRandom := by
  intro s
  cases h : s.rand <;> simp [Interp.nextRandom, h]

/-- addWarning preserves the error list. -/
theorem ErrPreserve.addWarning (w : String) :
    ErrPreserve (ErrorHandler.addWarning w) := fun _ => rfl

/-- addPublicWarning preserves the error list. -/
theorem ErrPreserve.addPublicWarning (w : String) :
    ErrPreserve (ErrorHandler.addPublicWarning w) := fun _ => rfl

/-- Binding two errors-preserving computations preserves the error list. -/
theorem ErrPreserve.bind_pres {α β : Type} {m : Interp α} {f : α → Interp β}
    (hm : ErrPreserve m) (hf : ∀ a, ErrPreserve (f a)) :
    ErrPreserve (m >>= f) := by
  intro s
  have h1 := hm s
  cases hm1 : m s with
  | mk out s1 =>
    rw [hm1] at h1
    cases out with
    | ok a =>
      have h2 := hf a s1
      simp only [Interp.bind_apply, hm1]
      rw [h2, h1]
    | error e =>
      simp only [Interp.bind_apply, hm1]
      exact h1

/-- Both branches of an if preserve the error list. -/
theorem ErrPreserve.ite_pres {α : Type} (c : Prop) [Decidable c]
    {m m' : Interp α} (h : ErrPreserve m) (h' : ErrPreserve m') :
    ErrPreserve (if c then m else m') := by
  by_cases hc : c <;> simp [hc, h, h']

/-- Binding under the bound: the continuation runs only from states the
first part left within the ceiling. -/
theorem ErrBound.bind {cfg : ErrorHandlerConfig} {α β : Type}
    {m : Interp α} {f : α → Interp β}
    (hm : ErrBound cfg m) (hf : ∀ a, ErrBound cfg (f a)) :
    ErrBound cfg (m >>= f) := by
  intro s hs
  have h1 := hm s hs
  cases hm1 : m s with
  | mk out s1 =>
    rw [hm1] at h1
    cases out with
    | ok a =>
      have h2 := hf a s1 h1
      simpa only [Interp.bind_apply, hm1] using h2
    | error e =>
      simpa only [Interp.bind_apply, hm1] using h1

/-- Both branches of an if under the bound. -/
theorem ErrBound.ite {cfg : ErrorHandlerConfig} {α : Type} (c : Prop)
    [Decidable c] {m m' : Interp α}
    (h : ErrBound cfg m) (h' : ErrBound cfg m') :
    ErrBound cfg (if c then m else m') := by
  by_cases hc : c <;> simp [hc, h, h']

/-- addError: one append; within the ceiling on normal return, at most one
past it when the ceiling throw fires. -/
theorem ErrBound.addError (cfg : ErrorHandlerConfig) (e : DicenicError) :
    ErrBound cfg (ErrorHandler.addError cfg e) := by
  intro s hs
  simp only [ErrorHandler.addError]
  split
  · rename_i a s1 hsplit
    split at hsplit
    · cases hsplit
    · rename_i hcond
      cases hsplit
      simp only [gt_iff_lt, not_lt, List.length_append, List.length_cons,
        List.length_nil] at hcond
      simp only [List.length_append, List.length_cons, List.length_nil]
      omega
  · rename_i e1 s1 hsplit
    split at hsplit
    · cases hsplit
      simp only [List.length_append, List.length_cons, List.length_nil]
      omega
    · cases hsplit

/-- handleRuntimeError satisfies the bound. -/
theorem ErrBound.handleRuntimeError (cfg : ErrorHandlerConfig)
    (msg : String) (line column : Int) (c : Option String) :
    ErrBound cfg (ErrorHandler.handleRuntimeError cfg msg line column c) := by
  refine ErrBound.bind (ErrBound.addError cfg _) (fun _ => ?_)
  exact ErrBound.ite _ (ErrBound.of_preserve (ErrPreserve.throwT _))
    (ErrBound.of_preserve (ErrPreserve.pure _))

/-- handleVariableAccessError satisfies the bound. -/
theorem ErrBound.handleVariableAccessError (cfg : ErrorHandlerConfig)
    (msg vn : String) (at' : AccessType) (line column : Int) :
    ErrBound cfg
      (ErrorHandler.handleVariableAccessError cfg msg vn at' line column) := by
  refine ErrBound.bind (ErrBound.addError cfg _) (fun _ => ?_)
  exact ErrBound.ite _ (ErrBound.of_preserve (ErrPreserve.throwT _))
    (ErrBound.of_preserve (ErrPreserve.pure _))

/-- handleDiceError satisfies the bound. -/
theorem ErrBound.handleDiceError (cfg : ErrorHandlerConfig)
    (msg de : String) (line column : Int) :
    ErrBound cfg (ErrorHandler.handleDiceError cfg msg de line column) := by
  simp only [ErrorHandler.handleDiceError]
  refine ErrBound.ite _ ?_ ?_
  · exact ErrBound.of_preserve
      (ErrPreserve.bind_pres (ErrPreserve.addWarning _) (fun _ => ErrPreserve.pure _))
  · exact ErrBound.bind (ErrBound.addError cfg _)
      (fun _ => ErrBound.of_preserve (ErrPreserve.throwT _))

/-- handleLoopError preserves the error list. -/
theorem ErrPreserve.handleLoopError (cfg : ErrorHandlerConfig)
    (msg lt : String) (mi : Option Nat) (line column : Int) :
    ErrPreserve (ErrorHandler.handleLoopError cfg msg lt mi line column) :=
  ErrPreserve.addWarning _

/-- A try/catch whose body never touches the error list satisfies the
bound whenever its handler does. -/
theorem ErrBound.tryCatch_preserve {cfg : ErrorHandlerConfig} {α : Type}
    {m : Interp α} {h : Thrown → Interp α}
    (hm : ErrPreserve m) (hh : ∀ e, ErrBound cfg (h e)) :
    ErrBound cfg (Interp.tryCatch m h) := by
  intro s hs
  have hp := hm s
  simp only [Interp.tryCatch_apply]
  cases hq : m s with
  | mk out s1 =>
    rw [hq] at hp
    cases out with
    | ok a =>
      simp only [hq]
      rw [hp]
      exact hs
    | error e =>
      simp only [hq]
      exact hh e s1 (by rw [hp]; exact hs)

/-- getSpecialVariableI preserves the error list. -/
theorem ErrPreserve.getSpecialVariableI (pfx : Char) (name : String) :
    ErrPreserve (DicenicInterpreter.getSpecialVariableI pfx name) := by
  intro s
  cases h : s.ctx.getSpecialVariable pfx name <;>
    simp [DicenicInterpreter.getSpecialVariableI, h]

/-- visitSpecialVariable preserves the error list. -/
theorem ErrPreserve.visitSpecialVariable (text : String) :
    ErrPreserve (DicenicInterpreter.visitSpecialVariable text) := by
  simp only [DicenicInterpreter.visitSpecialVariable]
  exact ErrPreserve.ite_pres _ (ErrPreserve.getSpecialVariableI _ _)
    (ErrPreserve.pure _)

/-- performArithmeticOperation preserves the error list. -/
theorem ErrPreserve.performArithmeticOperation (l r : DicenicValue)
    (op : ArithOp) :
    ErrPreserve (DicenicInterpreter.performArithmeticOperation l r op) := by
  intro s
  obtain ⟨v, w, h⟩ := performArithmeticOperation_total l r op s
  rw [h]

/-- rollOnce preserves the error list. -/
theorem ErrPreserve.rollOnce (sides : Nat) :
    ErrPreserve (DiceCalculator.rollOnce sides) :=
  ErrPreserve.bind_pres ErrPreserve.nextRandom (fun _ => ErrPreserve.pure _)

/-- rollSum preserves the error list. -/
theorem ErrPreserve.rollSum (sides : Nat) :
    ∀ n, ErrPreserve (DiceCalculator.rollSum sides n) := by
  intro n
  induction n with
  | zero => exact ErrPreserve.pure _
  | succ n ih =>
    exact ErrPreserve.bind_pres (ErrPreserve.rollOnce sides)
      (fun _ => ErrPreserve.bind_pres ih (fun _ => ErrPreserve.pure _))

/-- calculate preserves the error list. -/
theorem ErrPreserve.calculate (count sides : Nat) :
    ErrPreserve (DiceCalculator.calculate count sides) := by
  simp only [DiceCalculator.calculate]
  exact ErrPreserve.ite_pres
    (¬ DiceCalculator.validateDiceExpression count sides = true)
    (ErrPreserve.bind_pres (ErrPreserve.throwT _)
      (fun _ => ErrPreserve.rollSum sides count))
    (ErrPreserve.bind_pres (ErrPreserve.pure _)
      (fun _ => ErrPreserve.rollSum sides count))

/-- evaluateDiceExpression preserves the error list. -/
theorem ErrPreserve.evaluateDiceExpression (text : String) :
    ErrPreserve (DiceCalculator.evaluateDiceExpression text) := by
  simp only [DiceCalculator.evaluateDiceExpression]
  cases h : DiceCalculator.parseDiceExpression text with
  | error m => exact ErrPreserve.throwT _
  | ok p =>
    exact ErrPreserve.bind_pres (ErrPreserve.calculate p.1 p.2)
      (fun _ => ErrPreserve.pure _)

/-- visitDiceExpression satisfies the bound. -/
theorem ErrBound.visitDiceExpression (cfg : ErrorHandlerConfig)
    (text : String) :
    ErrBound cfg (DicenicInterpreter.visitDiceExpression cfg text) :=
  ErrBound.tryCatch_preserve (ErrPreserve.evaluateDiceExpression text)
    (fun _ => ErrBound.handleDiceError cfg _ _ _ _)

/-- performAssignment satisfies the bound: the value computation itself
never records an error, and the store step's only error path is
handleVariableAccessError. -/
theorem ErrBound.performAssignment (cfg : ErrorHandlerConfig) (lhs : Expr)
    (vr : DicenicValue) (op : AssignOp) :
    ErrBound cfg (DicenicInterpreter.performAssignment cfg lhs vr op) := by
  simp only [DicenicInterpreter.performAssignment]
  refine ErrBound.bind (ErrBound.of_preserve ?_) (fun fv => ?_)
  · cases op
    case assign => exact ErrPreserve.pure _
    all_goals
      refine ErrPreserve.bind_pres ?_ (fun cv => ?_)
      · cases lhs
        case identifier name =>
          exact ErrPreserve.bind_pres ErrPreserve.getS (fun _ => ErrPreserve.pure _)
        case specialVariable text =>
          exact ErrPreserve.ite_pres
            (jsStartsWith text "$" = true ∧ text.toList.length > 2)
            (ErrPreserve.getSpecialVariableI _ _) (ErrPreserve.pure _)
        all_goals exact ErrPreserve.throwT _
      · exact ErrPreserve.performArithmeticOperation _ _ _
  · cases lhs
    case identifier name =>
      exact ErrBound.bind
        (ErrBound.of_preserve (ErrPreserve.modifyCtx _))
        (fun _ => ErrBound.of_preserve (ErrPreserve.pure _))
    case specialVariable text =>
      by_cases hcond : (jsStartsWith text "$" = true ∧ text.toList.length > 2)
      · simp only [if_pos hcond]
        refine ErrBound.bind (ErrBound.of_preserve ErrPreserve.getS)
          (fun st => ?_)
        by_cases hw : ¬ st.ctx.canWriteSpecialVariable
            (text.toList.getD 1 ' ') = true
        · simp only [if_pos hw]
          exact ErrBound.bind (ErrBound.handleVariableAccessError cfg _ _ _ _ _)
            (fun _ => ErrBound.of_preserve (ErrPreserve.pure _))
        · simp only [if_neg hw]
          cases h : st.ctx.setSpecialVariable (text.toList.getD 1 ' ')
            (String.mk (text.toList.drop 2)) fv with
          | ok c2 =>
            simp only [h]
            exact ErrBound.bind
              (ErrBound.of_preserve (ErrPreserve.modifyCtx _))
              (fun _ => ErrBound.of_preserve (ErrPreserve.pure _))
          | error m =>
            simp only [h]
            exact ErrBound.bind
              (ErrBound.handleVariableAccessError cfg _ _ _ _ _)
              (fun _ => ErrBound.of_preserve (ErrPreserve.pure _))
      · simp only [if_neg hcond]
        exact ErrBound.of_preserve (ErrPreserve.throwT _)
    all_goals exact ErrBound.of_preserve (ErrPreserve.throwT _)

/-- The error-ceiling bound holds for every expression evaluation and every
chain-loop continuation (joint strong induction over term size). -/
theorem errBound_evalExpr_all (cfg : ErrorHandlerConfig) :
    ∀ N : Nat,
      (∀ e : Expr, sizeOf e ≤ N →
        ErrBound cfg (DicenicInterpreter.evalExpr cfg e)) ∧
      (∀ l : List Expr, sizeOf l ≤ N → ∀ v,
        ErrBound cfg (DicenicInterpreter.evalOrRest cfg v l)) ∧
      (∀ l : List Expr, sizeOf l ≤ N → ∀ v,
        ErrBound cfg (DicenicInterpreter.evalAndRest cfg v l)) ∧
      (∀ l : List (EqOp × Expr), sizeOf l ≤ N → ∀ v,
        ErrBound cfg (DicenicInterpreter.evalEqRest cfg v l)) ∧
      (∀ l : List (RelOp × Expr), sizeOf l ≤ N → ∀ v,
        ErrBound cfg (DicenicInterpreter.evalRelRest cfg v l)) ∧
      (∀ l : List (AddOp × Expr), sizeOf l ≤ N → ∀ v,
        ErrBound cfg (DicenicInterpreter.evalAddRest cfg v l)) ∧
      (∀ l : List (MulOp × Expr), sizeOf l ≤ N → ∀ v,
        ErrBound cfg (DicenicInterpreter.evalMulRest cfg v l)) := by
  intro N
  induction N using Nat.strong_induction_on with
  | _ N ih =>
  have hex : ∀ e : Expr, sizeOf e < N →
      ErrBound cfg (DicenicInterpreter.evalExpr cfg e) :=
    fun e h => (ih (sizeOf e) h).1 e le_rfl
  have hor : ∀ l : List Expr, sizeOf l < N → ∀ v,
      ErrBound cfg (DicenicInterpreter.evalOrRest cfg v l) :=
    fun l h => (ih (sizeOf l) h).2.1 l le_rfl
  have hand : ∀ l : List Expr, sizeOf l < N → ∀ v,
      ErrBound cfg (DicenicInterpreter.evalAndRest cfg v l) :=
    fun l h => (ih (sizeOf l) h).2.2.1 l le_rfl
  have heq : ∀ l : List (EqOp × Expr), sizeOf l < N → ∀ v,
      ErrBound cfg (DicenicInterpreter.evalEqRest cfg v l) :=
    fun l h => (ih (sizeOf l) h).2.2.2.1 l le_rfl
  have hrel : ∀ l : List (RelOp × Expr), sizeOf l < N → ∀ v,
      ErrBound cfg (DicenicInterpreter.evalRelRest cfg v l) :=
    fun l h => (ih (sizeOf l) h).2.2.2.2.1 l le_rfl
  have hadd : ∀ l : List (AddOp × Expr), sizeOf l < N → ∀ v,
      ErrBound cfg (DicenicInterpreter.evalAddRest cfg v l) :=
    fun l h => (ih (sizeOf l) h).2.2.2.2.2.1 l le_rfl
  have hmul : ∀ l : List (MulOp × Expr), sizeOf l < N → ∀ v,
      ErrBound cfg (DicenicInterpreter.evalMulRest cfg v l) :=
    fun l h => (ih (sizeOf l) h).2.2.2.2.2.2 l le_rfl
  refine ⟨?_, ?_, ?_, ?_, ?_, ?_, ?_⟩
  · intro e hsize
    cases e with
    | ternary cond branches =>
      simp only [DicenicInterpreter.evalExpr]
      refine ErrBound.bind (hex cond (by simp at hsize; omega))
        (fun condition => ?_)
      cases branches with
      | none => exact ErrBound.of_preserve (ErrPreserve.pure _)
      | some p =>
        cases p with
        | mk tbr fbr =>
          exact ErrBound.ite (TypeConverter.toBoolean condition = true)
            (hex tbr (by simp at hsize; omega))
            (hex fbr (by simp at hsize; omega))
    | logicalOr head rest =>
      simp only [DicenicInterpreter.evalExpr]
      exact ErrBound.bind (hex head (by simp at hsize; omega))
        (fun r => hor rest (by simp at hsize; omega) r)
    | logicalAnd head rest =>
      simp only [DicenicInterpreter.evalExpr]
      exact ErrBound.bind (hex head (by simp at hsize; omega))
        (fun r => hand rest (by simp at hsize; omega) r)
    | equality head rest =>
      simp only [DicenicInterpreter.evalExpr]
      exact ErrBound.bind (hex head (by simp at hsize; omega))
        (fun r => heq rest (by simp at hsize; omega) r)
    | relational head rest =>
      simp only [DicenicInterpreter.evalExpr]
      exact ErrBound.bind (hex head (by simp at hsize; omega))
        (fun r => hrel rest (by simp at hsize; omega) r)
    | additive head rest =>
      simp only [DicenicInterpreter.evalExpr]
      exact ErrBound.bind (hex head (by simp at hsize; omega))
        (fun r => hadd rest (by simp at hsize; omega) r)
    | multiplicative head rest =>
      simp only [DicenicInterpreter.evalExpr]
      exact ErrBound.bind (hex head (by simp at hsize; omega))
        (fun r => hmul rest (by simp at hsize; omega) r)
    | unary op e =>
      simp only [DicenicInterpreter.evalExpr]
      cases op <;>
        exact ErrBound.bind (hex e (by simp at hsize; omega))
          (fun _ => ErrBound.of_preserve (ErrPreserve.pure _))
    | assignment lhs rest =>
      cases rest with
      | none =>
        simp only [DicenicInterpreter.evalExpr]
        exact hex lhs (by simp at hsize; omega)
      | some p =>
        cases p with
        | mk op rhs =>
          simp only [DicenicInterpreter.evalExpr]
          exact ErrBound.bind (hex rhs (by simp at hsize; omega))
            (fun vr => ErrBound.performAssignment cfg lhs vr op)
    | numberLiteral text =>
      simp only [DicenicInterpreter.evalExpr]
      exact ErrBound.of_preserve (ErrPreserve.pure _)
    | stringLiteral text =>
      simp only [DicenicInterpreter.evalExpr]
      exact ErrBound.of_preserve
        (ErrPreserve.bind_pres ErrPreserve.getS (fun _ => ErrPreserve.pure _))
    | diceExpr text =>
      simp only [DicenicInterpreter.evalExpr]
      exact ErrBound.visitDiceExpression cfg text
    | identifier name =>
      simp only [DicenicInterpreter.evalExpr]
      exact ErrBound.of_preserve
        (ErrPreserve.bind_pres ErrPreserve.getS (fun _ => ErrPreserve.pure _))
    | specialVariable text =>
      simp only [DicenicInterpreter.evalExpr]
      exact ErrBound.of_preserve (ErrPreserve.visitSpecialVariable text)
    | paren e =>
      simp only [DicenicInterpreter.evalExpr]
      exact hex e (by simp at hsize; omega)
  · intro l hsize v
    cases l with
    | nil =>
      simp only [DicenicInterpreter.evalOrRest]
      exact ErrBound.of_preserve (ErrPreserve.pure _)
    | cons e rest =>
      simp only [DicenicInterpreter.evalOrRest]
      refine ErrBound.ite (TypeConverter.toBoolean v = true)
        (ErrBound.of_preserve (ErrPreserve.pure _)) ?_
      exact ErrBound.bind (hex e (by simp at hsize; omega))
        (fun r => hor rest (by simp at hsize; omega) _)
  · intro l hsize v
    cases l with
    | nil =>
      simp only [DicenicInterpreter.evalAndRest]
      exact ErrBound.of_preserve (ErrPreserve.pure _)
    | cons e rest =>
      simp only [DicenicInterpreter.evalAndRest]
      refine ErrBound.ite (¬ TypeConverter.toBoolean v = true)
        (ErrBound.of_preserve (ErrPreserve.pure _)) ?_
      exact ErrBound.bind (hex e (by simp at hsize; omega))
        (fun r => hand rest (by simp at hsize; omega) _)
  · intro l hsize v
    cases l with
    | nil =>
      simp only [DicenicInterpreter.evalEqRest]
      exact ErrBound.of_preserve (ErrPreserve.pure _)
    | cons p rest =>
      cases p with
      | mk op e =>
        simp only [DicenicInterpreter.evalEqRest]
        exact ErrBound.bind (hex e (by simp at hsize; omega))
          (fun r => heq rest (by simp at hsize; omega) _)
  · intro l hsize v
    cases l with
    | nil =>
      simp only [DicenicInterpreter.evalRelRest]
      exact ErrBound.of_preserve (ErrPreserve.pure _)
    | cons p rest =>
      cases p with
      | mk op e =>
        simp only [DicenicInterpreter.evalRelRest]
        exact ErrBound.bind (hex e (by simp at hsize; omega))
          (fun r => hrel rest (by simp at hsize; omega) _)
  · intro l hsize v
    cases l with
    | nil =>
      simp only [DicenicInterpreter.evalAddRest]
      exact ErrBound.of_preserve (ErrPreserve.pure _)
    | cons p rest =>
      cases p with
      | mk op e =>
        simp only [DicenicInterpreter.evalAddRest]
        refine ErrBound.bind (hex e (by simp at hsize; omega)) (fun r => ?_)
        exact ErrBound.bind
          (ErrBound.of_preserve (ErrPreserve.performArithmeticOperation _ _ _))
          (fun r2 => hadd rest (by simp at hsize; omega) _)
  · intro l hsize v
    cases l with
    | nil =>
      simp only [DicenicInterpreter.evalMulRest]
      exact ErrBound.of_preserve (ErrPreserve.pure _)
    | cons p rest =>
      cases p with
      | mk op e =>
        simp only [DicenicInterpreter.evalMulRest]
        refine ErrBound.bind (hex e (by simp at hsize; omega)) (fun r => ?_)
        exact ErrBound.bind
          (ErrBound.of_preserve (ErrPreserve.performArithmeticOperation _ _ _))
          (fun r2 => hmul rest (by simp at hsize; omega) _)

/-- The error-ceiling bound for every expression evaluation. -/
theorem errBound_evalExpr (cfg : ErrorHandlerConfig) (e : Expr) :
    ErrBound cfg (DicenicInterpreter.evalExpr cfg e) :=
  (errBound_evalExpr_all cfg (sizeOf e)).1 e le_rfl

/-- The error-ceiling bound for the while loop, by induction on the
remaining loop budget. -/
theorem errBound_whileAux (cfg : ErrorHandlerConfig) (cond : Expr)
    (body : Stmt)
    (hbody : ErrBound cfg (DicenicInterpreter.evalStmt cfg body)) :
    ∀ fuel k r, DicenicInterpreter.maxLoopCount - k ≤ fuel →
      ErrBound cfg (DicenicInterpreter.whileAux cfg cond body k r) := by
  intro fuel
  induction fuel with
  | zero =>
    intro k r hk
    rw [DicenicInterpreter.whileAux, if_neg (by omega)]
    exact ErrBound.of_preserve (ErrPreserve.pure _)
  | succ fuel ih =>
    intro k r hk
    rw [DicenicInterpreter.whileAux]
    by_cases hlt : k < DicenicInterpreter.maxLoopCount
    · rw [if_pos hlt]
      refine ErrBound.bind (errBound_evalExpr cfg cond) (fun cv => ?_)
      refine ErrBound.ite (TypeConverter.toBoolean cv = true) ?_
        (ErrBound.of_preserve (ErrPreserve.pure _))
      refine ErrBound.bind hbody (fun r2 => ?_)
      refine ErrBound.bind (ErrBound.of_preserve (ErrPreserve.setLastValue r2))
        (fun _ => ?_)
      exact ih (k + 1) r2 (by omega)
    · rw [if_neg hlt]
      exact ErrBound.of_preserve (ErrPreserve.pure _)

/-- The error-ceiling bound holds for every statement and every statement
list (joint strong induction over term size). -/
theorem errBound_evalStmt_all (cfg : ErrorHandlerConfig) :
    ∀ N : Nat,
      (∀ st : Stmt, sizeOf st ≤ N →
        ErrBound cfg (DicenicInterpreter.evalStmt cfg st)) ∧
      (∀ l : List Stmt, sizeOf l ≤ N → ∀ v,
        ErrBound cfg (DicenicInterpreter.runStmts cfg l v)) := by
  intro N
  induction N using Nat.strong_induction_on with
  | _ N ih =>
  have hst : ∀ st : Stmt, sizeOf st < N →
      ErrBound cfg (DicenicInterpreter.evalStmt cfg st) :=
    fun st h => (ih (sizeOf st) h).1 st le_rfl
  have hrun : ∀ l : List Stmt, sizeOf l < N → ∀ v,
      ErrBound cfg (DicenicInterpreter.runStmts cfg l v) :=
    fun l h => (ih (sizeOf l) h).2 l le_rfl
  constructor
  · intro st hsize
    cases st with
    | ifStmt cond thenBranch elseBranch =>
      rw [DicenicInterpreter.evalStmt.eq_def]
      refine ErrBound.bind (errBound_evalExpr cfg cond) (fun cv => ?_)
      refine ErrBound.ite (TypeConverter.toBoolean cv = true)
        (hst thenBranch (by simp at hsize; omega)) ?_
      cases elseBranch with
      | none => exact ErrBound.of_preserve (ErrPreserve.pure _)
      | some els => exact hst els (by simp at hsize; omega)
    | whileStmt cond body =>
      rw [DicenicInterpreter.evalStmt.eq_def]
      refine ErrBound.bind
        (errBound_whileAux cfg cond body (hst body (by simp at hsize; omega))
          DicenicInterpreter.maxLoopCount 0 (numberValue 0) (by omega))
        (fun p => ?_)
      cases p with
      | mk result loopCount =>
        refine ErrBound.of_preserve ?_
        exact ErrPreserve.ite_pres (loopCount ≥ DicenicInterpreter.maxLoopCount)
          (ErrPreserve.bind_pres
            (ErrPreserve.handleLoopError cfg _ _ _ (-1) (-1))
            (fun _ => ErrPreserve.pure _))
          (ErrPreserve.bind_pres (ErrPreserve.pure _)
            (fun _ => ErrPreserve.pure _))
    | exprStmt e =>
      rw [DicenicInterpreter.evalStmt.eq_def]
      exact errBound_evalExpr cfg e
    | block stmts =>
      rw [DicenicInterpreter.evalStmt.eq_def]
      exact hrun stmts (by simp at hsize; omega) _
  · intro l hsize v
    cases l with
    | nil =>
      rw [DicenicInterpreter.runStmts]
      exact ErrBound.of_preserve (ErrPreserve.pure _)
    | cons st rest =>
      rw [DicenicInterpreter.runStmts]
      refine ErrBound.bind (hst st (by simp at hsize; omega)) (fun r => ?_)
      refine ErrBound.bind (ErrBound.of_preserve (ErrPreserve.setLastValue r))
        (fun _ => ?_)
      exact hrun rest (by simp at hsize; omega) _

/-- The error-ceiling bound for the whole program walk. -/
theorem errBound_interpret (cfg : ErrorHandlerConfig) (prog : List Stmt) :
    ErrBound cfg (DicenicInterpreter.interpret cfg prog) := by
  simp only [DicenicInterpreter.interpret, DicenicInterpreter.visitProgram]
  refine ErrBound.bind (ErrBound.of_preserve (ErrPreserve.setLastValue _))
    (fun _ => ?_)
  refine ErrBound.bind
    ((errBound_evalStmt_all cfg (sizeOf prog)).2 prog le_rfl _) (fun _ => ?_)
  exact ErrBound.of_preserve
    (ErrPreserve.bind_pres ErrPreserve.getS (fun _ => ErrPreserve.pure _))

/-- C6 counterexample: with maxErrors = 0 the script $rx = 1 ends with the
error sequence at length 1 — strictly above the configured maxErrors — in
the state the aborting run leaves behind: addError pushes first and only
then throws, so during execution the sequence does exceed the ceiling. -/
theorem c6_counterexample :
    ((executeScriptCore
        [Stmt.exprStmt (Expr.assignment
          (Expr.specialVariable (String.mk ['$', 'r', 'x']))
          (some (AssignOp.assign, Expr.numberLiteral "1")))]
        { DEFAULT_ERROR_CONFIG with maxErrors := 0 }
        emptyContext []).2).errors.length >
      ({ DEFAULT_ERROR_CONFIG with maxErrors := 0 } :
        ErrorHandlerConfig).maxErrors := by
  have hassign : ∀ s : InterpState, s.errors = [] →
      DicenicInterpreter.evalExpr { DEFAULT_ERROR_CONFIG with maxErrors := 0 }
          (.assignment (.specialVariable (String.mk ['$', 'r', 'x']))
            (some (.assign, .numberLiteral "1"))) s =
        (.error (.dicenic (.runtimeError
          ("Too many errors (" ++ toString (1 : Nat) ++
            "), stopping execution") (-1) (-1)
          (some "Error limit exceeded"))),
         { s with errors := [DicenicError.variableAccessError
            ("Cannot write to read-only variable: " ++
              String.mk ['$', 'r', 'x'])
            (String.mk ['$', 'r', 'x']) .write (-1) (-1)] }) := by
    intro s herr
    have hrhs : DicenicInterpreter.evalExpr
        { DEFAULT_ERROR_CONFIG with maxErrors := 0 }
        (.numberLiteral "1") s =
        (.ok (DicenicInterpreter.visitNumberLiteral "1"), s) := by
      simp [DicenicInterpreter.evalExpr]
    obtain ⟨h1, h2, h3, h4⟩ := specialText_parts 'r' 'x' []
    simp only [DicenicInterpreter.evalExpr, Interp.bind_apply, hrhs,
      DicenicInterpreter.performAssignment, Interp.pure_apply,
      Interp.getS_apply, h1, h2, h3, h4, if_true, and_true, true_and,
      ErrorHandler.handleVariableAccessError, ErrorHandler.addError,
      Interp.bind_apply, Interp.throwT_apply, herr]
    simp [ExecutionContext.canWriteSpecialVariable, ErrorHandler.addError,
      herr]
  simp only [executeScriptCore, DicenicInterpreter.interpret,
    DicenicInterpreter.visitProgram, Interp.bind_apply,
    Interp.setLastValue_apply]
  rw [DicenicInterpreter.runStmts]
  rw [DicenicInterpreter.evalStmt.eq_def]
  simp only [Interp.bind_apply]
  rw [hassign _ (by simp [initState])]
  simp [initState]

/-- C6 (amended): every error append first pushes the error and then, when
the new length exceeds maxErrors, raises a Runtime error unconditionally —
even with enableRecovery true — leaving the over-ceiling list (length
maxErrors + 1) in the state.  Consequently the run-wide invariant is: a
normally completing execution ends with the error sequence at length at
most maxErrors, and an aborting execution ends with it at length at most
maxErrors + 1 (not maxErrors, as the claim's first half states). -/
theorem c6_error_ceiling :
    (∀ (cfg : ErrorHandlerConfig) (e : DicenicError) (s : InterpState),
      cfg.maxErrors ≤ s.errors.length →
      ErrorHandler.addError cfg e s =
        (.error (.dicenic (.runtimeError
          ("Too many errors (" ++ toString (s.errors.length + 1) ++
            "), stopping execution") (-1) (-1)
          (some "Error limit exceeded"))),
         { s with errors := s.errors ++ [e] })) ∧
    (∀ (prog : List Stmt) (cfg : ErrorHandlerConfig)
       (ctx : ExecutionContext) (rand : List ℚ) (r : ScriptResult)
       (s1 : InterpState),
      executeScriptCore prog cfg ctx rand = (.ok r, s1) →
      s1.errors.length ≤ cfg.maxErrors) ∧
    (∀ (prog : List Stmt) (cfg : ErrorHandlerConfig)
       (ctx : ExecutionContext) (rand : List ℚ) (t : Thrown)
       (s1 : InterpState),
      executeScriptCore prog cfg ctx rand = (.error t, s1) →
      s1.errors.length ≤ cfg.maxErrors + 1) := by
  have hb : ∀ (prog : List Stmt) (cfg : ErrorHandlerConfig)
      (ctx : ExecutionContext) (rand : List ℚ)
      (out : Except Thrown ScriptResult) (s1 : InterpState),
      executeScriptCore prog cfg ctx rand = (out, s1) →
      (∀ r, out = .ok r → s1.errors.length ≤ cfg.maxErrors) ∧
      (∀ t, out = .error t → s1.errors.length ≤ cfg.maxErrors + 1) := by
    intro prog cfg ctx rand out s1 hrun
    have hbound : ErrBound cfg
        (DicenicInterpreter.interpret cfg prog >>= fun result =>
          Interp.getS >>= fun s =>
            Interp.pure' (ScriptResult.mk result
              (s.errors.map DicenicError.getFormattedMessage) s.warnings
              (s.errors.map DicenicError.getFormattedMessage).isEmpty)) :=
      ErrBound.bind (errBound_interpret cfg prog) (fun result =>
        ErrBound.of_preserve (ErrPreserve.bind_pres ErrPreserve.getS
          (fun s => ErrPreserve.pure' _)))
    have h0 := hbound (initState ctx rand) (by simp [initState])
    have hdef : executeScriptCore prog cfg ctx rand =
        (DicenicInterpreter.interpret cfg prog >>= fun result =>
          Interp.getS >>= fun s =>
            Interp.pure' (ScriptResult.mk result
              (s.errors.map DicenicError.getFormattedMessage) s.warnings
              (s.errors.map DicenicError.getFormattedMessage).isEmpty))
          (initState ctx rand) := rfl
    rw [hdef.symm.trans hrun] at h0
    cases out with
    | ok r =>
      exact ⟨(fun r2 hr2 => h0), (fun t ht => by cases ht)⟩
    | error t =>
      exact ⟨(fun r2 hr2 => by cases hr2), (fun t2 ht2 => h0)⟩
  refine ⟨?_, ?_, ?_⟩
  · intro cfg e s h
    simp only [ErrorHandler.addError, List.length_append, List.length_cons,
      List.length_nil, Nat.zero_add]
    rw [if_pos (by omega)]
  · intro prog cfg ctx rand r s1 hrun
    exact (hb prog cfg ctx rand _ s1 hrun).1 r rfl
  · intro prog cfg ctx rand t s1 hrun
    exact (hb prog cfg ctx rand _ s1 hrun).2 t rfl

/-- Witness for C6: with maxErrors = 0 a first addError already pushes and
throws, and the empty program's run ends within the default ceiling. -/
theorem c6_error_ceiling_witness :
    (ErrorHandler.addError { DEFAULT_ERROR_CONFIG with maxErrors := 0 }
        (DicenicError.runtimeError "boom" (-1) (-1) none)
        (initState emptyContext []) =
      (.error (.dicenic (.runtimeError
        ("Too many errors (" ++
          toString ((initState emptyContext []).errors.length + 1) ++
          "), stopping execution") (-1) (-1)
        (some "Error limit exceeded"))),
       { initState emptyContext [] with
          errors := (initState emptyContext []).errors ++
            [DicenicError.runtimeError "boom" (-1) (-1) none] })) ∧
    (initState emptyContext []).errors.length ≤
      DEFAULT_ERROR_CONFIG.maxErrors := by
  constructor
  · exact c6_error_ceiling.1 { DEFAULT_ERROR_CONFIG with maxErrors := 0 }
      (DicenicError.runtimeError "boom" (-1) (-1) none)
      (initState emptyContext []) (by simp [initState])
  · exact c6_error_ceiling.2.1 [] DEFAULT_ERROR_CONFIG emptyContext []
      (ScriptResult.mk "0" [] [] true) (initState emptyContext [])
      (by simp [executeScriptCore, DicenicInterpreter.interpret,
        DicenicInterpreter.visitProgram, DicenicInterpreter.runStmts,
        initState, emptyContext,
        jsNumToString_int (q := (0:ℚ)) (i := 0) (by norm_num) (by norm_num)
          "0" (by decide)])
